import Mathlib

/-!
Verification development for the iexstuff repository: an IEX-TP / DEEP pcap
decoder (src/iex_pcap_parser/src/main.rs) plus trade-date helpers
(src/libfs/src/lib.rs, src/libiex/src/lib.rs).

Modelling conventions:
- a Rust byte slice is a `List Nat` whose entries are the byte values;
- Rust index panics (out-of-bounds slice access) are `Except.error ()`;
  a normal return of `Option` is `Except.ok (some _)` or `Except.ok none`;
- machine integers are `Nat` (the source only widens u8 values into
  u16/u32/u64 accumulators, which cannot overflow, so no modular
  reduction is needed).
-/

set_option maxHeartbeats 2000000
set_option linter.unusedVariables false

/-- Little-endian u16 extraction, mirroring the `bytes_u16!` macro
(sum of bytes shifted by 8 * index).  Used at call sites that are
guarded in the source, hence total with `getD`. -/
def bytes_u16 (bytes : List Nat) (off : Nat) : Nat :=
  bytes.getD off 0 + bytes.getD (off + 1) 0 * 256

/-- Little-endian u32 extraction, mirroring the `bytes_u32!` macro. -/
def bytes_u32 (bytes : List Nat) (off : Nat) : Nat :=
  bytes.getD off 0 + bytes.getD (off + 1) 0 * 256 +
  bytes.getD (off + 2) 0 * 65536 + bytes.getD (off + 3) 0 * 16777216

/-- Little-endian u64 extraction, mirroring the `bytes_u64!` macro. -/
def bytes_u64 (bytes : List Nat) (off : Nat) : Nat :=
  bytes.getD off 0 + bytes.getD (off + 1) 0 * 256 +
  bytes.getD (off + 2) 0 * 65536 + bytes.getD (off + 3) 0 * 16777216 +
  bytes.getD (off + 4) 0 * 4294967296 + bytes.getD (off + 5) 0 * 1099511627776 +
  bytes.getD (off + 6) 0 * 281474976710656 + bytes.getD (off + 7) 0 * 72057594037927936

/-- A single `bytes[i]` read inside `parse_message`, where the source does
not check bounds: an out-of-bounds index is a Rust panic, modelled as
`Except.error ()`. -/
def byteAt (bytes : List Nat) (i : Nat) : Except Unit Nat :=
  match bytes[i]? with
  | some b => Except.ok b
  | none => Except.error ()

/-- `bytes_u32!` as used inside `parse_message`: the macro indexes
`bytes[off] ..= bytes[off+3]` without a bounds check, so the read panics
exactly when the last index is out of bounds and otherwise yields the
little-endian sum. -/
def bytes_u32E (bytes : List Nat) (off : Nat) : Except Unit Nat :=
  if off + 3 < bytes.length then Except.ok (bytes_u32 bytes off) else Except.error ()

/-- `bytes_u64!` as used inside `parse_message`: indexes
`bytes[off] ..= bytes[off+7]` without a bounds check, so the read panics
exactly when the last index is out of bounds and otherwise yields the
little-endian sum. -/
def bytes_u64E (bytes : List Nat) (off : Nat) : Except Unit Nat :=
  if off + 7 < bytes.length then Except.ok (bytes_u64 bytes off) else Except.error ()

/-- The 8 symbol reads `bytes[off] as char, ..., bytes[off+7] as char` of
the source struct literals: they panic exactly when the last index is out
of bounds and otherwise yield the 8 byte values. -/
def symbolAt (bytes : List Nat) (off : Nat) : Except Unit (List Nat) :=
  if off + 7 < bytes.length then
    Except.ok [bytes.getD off 0, bytes.getD (off + 1) 0, bytes.getD (off + 2) 0,
               bytes.getD (off + 3) 0, bytes.getD (off + 4) 0, bytes.getD (off + 5) 0,
               bytes.getD (off + 6) 0, bytes.getD (off + 7) 0]
  else Except.error ()

/-- `MessageSymbol = [char; 8]` from the source; the `u8 as char` widening
keeps the byte value, so a symbol is its list of 8 byte values. -/
abbrev MessageSymbol := List Nat

/-- Pure form of the symbol at offset 10 (every message type reads its
symbol there), for stating decoded-field equalities. -/
def symD (bytes : List Nat) : MessageSymbol :=
  [bytes.getD 10 0, bytes.getD 11 0, bytes.getD 12 0, bytes.getD 13 0,
   bytes.getD 14 0, bytes.getD 15 0, bytes.getD 16 0, bytes.getD 17 0]

/-- Pure form of the 4 reason chars at offset 18 of a Trading Status record. -/
def reasonD (bytes : List Nat) : List Nat :=
  [bytes.getD 18 0, bytes.getD 19 0, bytes.getD 20 0, bytes.getD 21 0]

/-- enum SystemEvent from the source (discriminants are the ASCII codes). -/
inductive SystemEvent where
  | StartOfMessages
  | StartOfSystemHours
  | StartOfRegularMarketHours
  | EndOfRegularMarketHours
  | EndOfSystemHours
  | EndOfMessages
deriving DecidableEq, Repr

/-- SystemEvent::from_u8: the match arms on chr O, S, R, M, E, C. -/
def SystemEvent.from_u8 (byte : Nat) : Option SystemEvent :=
  if byte = 79 then some .StartOfMessages
  else if byte = 83 then some .StartOfSystemHours
  else if byte = 82 then some .StartOfRegularMarketHours
  else if byte = 77 then some .EndOfRegularMarketHours
  else if byte = 69 then some .EndOfSystemHours
  else if byte = 67 then some .EndOfMessages
  else none

/-- enum LimitUpLimitDownTier from the source. -/
inductive LimitUpLimitDownTier where
  | NotApplicable
  | Tier1NmsStock
  | Tier2NmsStock
deriving DecidableEq, Repr

/-- LimitUpLimitDownTier::from_u8: match arms on 0x0, 0x1, 0x2. -/
def LimitUpLimitDownTier.from_u8 (byte : Nat) : Option LimitUpLimitDownTier :=
  if byte = 0 then some .NotApplicable
  else if byte = 1 then some .Tier1NmsStock
  else if byte = 2 then some .Tier2NmsStock
  else none

/-- enum TradingStatus from the source. -/
inductive TradingStatus where
  | Halted
  | HaltReleasedIntoOrderAcceptancePeriod
  | PausedAndOrderAcceptancePeriod
  | Trading
deriving DecidableEq, Repr

/-- TradingStatus::from_u8: match arms on chr H, O, P, T. -/
def TradingStatus.from_u8 (byte : Nat) : Option TradingStatus :=
  if byte = 72 then some .Halted
  else if byte = 79 then some .HaltReleasedIntoOrderAcceptancePeriod
  else if byte = 80 then some .PausedAndOrderAcceptancePeriod
  else if byte = 84 then some .Trading
  else none

/-- enum OperationalHaltStatus from the source. -/
inductive OperationalHaltStatus where
  | Halted
  | NotHalted
deriving DecidableEq, Repr

/-- OperationalHaltStatus::from_u8: match arms on chr O, N. -/
def OperationalHaltStatus.from_u8 (byte : Nat) : Option OperationalHaltStatus :=
  if byte = 79 then some .Halted
  else if byte = 78 then some .NotHalted
  else none

/-- enum ShortSalePriceTestStatus from the source. -/
inductive ShortSalePriceTestStatus where
  | NotInEffect
  | InEffect
deriving DecidableEq, Repr

/-- ShortSalePriceTestStatus::from_u8: match arms on 0x0, 0x1. -/
def ShortSalePriceTestStatus.from_u8 (byte : Nat) : Option ShortSalePriceTestStatus :=
  if byte = 0 then some .NotInEffect
  else if byte = 1 then some .InEffect
  else none

/-- enum Detail from the source. -/
inductive Detail where
  | NoPriceTestInPlace
  | Activated
  | Continued
  | Deactivated
  | NotAvailable
deriving DecidableEq, Repr

/-- Detail::from_u8: match arms on chr space, A, C, D, N. -/
def Detail.from_u8 (byte : Nat) : Option Detail :=
  if byte = 32 then some .NoPriceTestInPlace
  else if byte = 65 then some .Activated
  else if byte = 67 then some .Continued
  else if byte = 68 then some .Deactivated
  else if byte = 78 then some .NotAvailable
  else none

/-- enum SecurityEvent from the source. -/
inductive SecurityEvent where
  | OpeningProcessComplete
  | ClosingProcessComplete
deriving DecidableEq, Repr

/-- SecurityEvent::from_u8: match arms on chr O, C. -/
def SecurityEvent.from_u8 (byte : Nat) : Option SecurityEvent :=
  if byte = 79 then some .OpeningProcessComplete
  else if byte = 67 then some .ClosingProcessComplete
  else none

/-- enum PriceLevelUpdateEventFlags from the source. -/
inductive PriceLevelUpdateEventFlags where
  | OrderBookIsProcessingAnEvent
  | EventProcessingComplete
deriving DecidableEq, Repr

/-- PriceLevelUpdateEventFlags::from_u8: match arms on 0x0, 0x1. -/
def PriceLevelUpdateEventFlags.from_u8 (byte : Nat) : Option PriceLevelUpdateEventFlags :=
  if byte = 0 then some .OrderBookIsProcessingAnEvent
  else if byte = 1 then some .EventProcessingComplete
  else none

/-- enum PriceType from the source. -/
inductive PriceType where
  | OfficialOpeningPrice
  | OfficialClosingPrice
deriving DecidableEq, Repr

/-- PriceType::from_u8: match arms on chr Q, M. -/
def PriceType.from_u8 (byte : Nat) : Option PriceType :=
  if byte = 81 then some .OfficialOpeningPrice
  else if byte = 77 then some .OfficialClosingPrice
  else none

/-- enum AuctionType from the source (never produced by parse_message). -/
inductive AuctionType where
  | Opening
  | Closing
  | Ipo
  | Halt
  | Volatility
deriving DecidableEq, Repr

/-- enum ImbalanceSide from the source (never produced by parse_message). -/
inductive ImbalanceSide where
  | BuySideImbalance
  | SellSideImbalance
  | NoImbalance
deriving DecidableEq, Repr

structure SystemEventMessage where
  system_event : SystemEvent
deriving DecidableEq, Repr

structure SecurityDirectoryMessage where
  symbol : MessageSymbol
  round_lot_size : Nat
  adjusted_poc_price : Nat
  luld_tier : LimitUpLimitDownTier
  flags : Nat
deriving DecidableEq, Repr

structure TradingStatusMessage where
  symbol : MessageSymbol
  reason : List Nat
  trading_status : TradingStatus
deriving DecidableEq, Repr

structure OperationalHaltStatusMessage where
  symbol : MessageSymbol
  operational_halt_status : OperationalHaltStatus
deriving DecidableEq, Repr

structure ShortSalePriceTestStatusMessage where
  symbol : MessageSymbol
  detail : Detail
  short_sale_price_test_status : ShortSalePriceTestStatus
deriving DecidableEq, Repr

structure SecurityEventMessage where
  symbol : MessageSymbol
  security_event : SecurityEvent
deriving DecidableEq, Repr

structure PriceLevelUpdateMessage where
  symbol : MessageSymbol
  size : Nat
  price : Nat
  event_flags : PriceLevelUpdateEventFlags
deriving DecidableEq, Repr

structure TradeReportMessage where
  symbol : MessageSymbol
  size : Nat
  price : Nat
  trade_id : Nat
  sale_condition_flags : Nat
deriving DecidableEq, Repr

structure OfficialPriceMessage where
  symbol : MessageSymbol
  official_price : Nat
  price_type : PriceType
deriving DecidableEq, Repr

structure TradeBreakMessage where
  symbol : MessageSymbol
  size : Nat
  price : Nat
  trade_id : Nat
  sale_condition_flags : Nat
deriving DecidableEq, Repr

structure AuctionInformationMessage where
  symbol : MessageSymbol
  paired_shares : Nat
  reference_price : Nat
  indicative_clearing_price : Nat
  imbalance_shares : Nat
  imbalance_side : ImbalanceSide
  extension_number : Nat
  scheduled_auction_time : Nat
  auction_book_clearing_price : Nat
  collar_reference_price : Nat
  lower_auction_collar : Nat
  upper_auction_collar : Nat
  auction_type : AuctionType
deriving DecidableEq, Repr

/-- enum IexDeepMessageImpl from the source. -/
inductive IexDeepMessageImpl where
  | SystemEvent (m : SystemEventMessage)
  | SecurityDirectory (m : SecurityDirectoryMessage)
  | TradingStatus (m : TradingStatusMessage)
  | OperationalHaltStatus (m : OperationalHaltStatusMessage)
  | ShortSalePriceTestStatus (m : ShortSalePriceTestStatusMessage)
  | SecurityEvent (m : SecurityEventMessage)
  | PriceLevelUpdate (m : PriceLevelUpdateMessage)
  | TradeReport (m : TradeReportMessage)
  | OfficialPrice (m : OfficialPriceMessage)
  | TradeBreak (m : TradeBreakMessage)
  | AuctionInformation (m : AuctionInformationMessage)
deriving DecidableEq, Repr

/-- struct IexDeepMessage from the source. -/
structure IexDeepMessage where
  message_type : Nat
  message_subtype : Nat
  timestamp : Nat
  body : IexDeepMessageImpl
  packet_number : Nat
  message_sequence_number : Nat
deriving DecidableEq, Repr

/-- The match statement of fn parse_message: given the three common-prefix
values already read, dispatch on the message type.  The
`ParseMessageResponse.consumed_bytes` field (a Rust `size_of_val`, used only
in a trace log) is memory layout and is omitted; the parsed message itself is
returned.  `Except.error ()` is a panic from an out-of-bounds `bytes[_]`
read, `Except.ok none` is a rejected record. -/
def dispatch_message (bytes : List Nat) (packet_num : Nat) (message_seq_num : Nat)
    (message_type message_subtype timestamp : Nat) :
    Except Unit (Option IexDeepMessage) :=
  if message_type = 83 then
    -- chr S: System Event
    match SystemEvent.from_u8 message_subtype with
    | none => pure none
    | some system_event =>
        pure (some
          { message_type, message_subtype, timestamp
            body := IexDeepMessageImpl.SystemEvent { system_event }
            packet_number := packet_num, message_sequence_number := message_seq_num })
  else if message_type = 68 then do
    -- chr D: Security Directory; bytes[30] is read before the tier check
    let tier_byte ← byteAt bytes 30
    match LimitUpLimitDownTier.from_u8 tier_byte with
    | none => pure none
    | some luld_tier => do
        let symbol ← symbolAt bytes 10
        let round_lot_size ← bytes_u32E bytes 18
        let adjusted_poc_price ← bytes_u64E bytes 22
        pure (some
          { message_type, message_subtype, timestamp
            body := IexDeepMessageImpl.SecurityDirectory
              { symbol, round_lot_size, adjusted_poc_price, luld_tier
                flags := message_subtype }
            packet_number := packet_num, message_sequence_number := message_seq_num })
  else if message_type = 72 then
    -- chr H: Trading Status
    match TradingStatus.from_u8 message_subtype with
    | none => pure none
    | some trading_status => do
        let symbol ← symbolAt bytes 10
        let r0 ← byteAt bytes 18
        let r1 ← byteAt bytes 19
        let r2 ← byteAt bytes 20
        let r3 ← byteAt bytes 21
        pure (some
          { message_type, message_subtype, timestamp
            body := IexDeepMessageImpl.TradingStatus
              { symbol, reason := [r0, r1, r2, r3], trading_status }
            packet_number := packet_num, message_sequence_number := message_seq_num })
  else if message_type = 79 then
    -- chr O: Operational Halt Status
    match OperationalHaltStatus.from_u8 message_subtype with
    | none => pure none
    | some operational_halt_status => do
        let symbol ← symbolAt bytes 10
        pure (some
          { message_type, message_subtype, timestamp
            body := IexDeepMessageImpl.OperationalHaltStatus
              { symbol, operational_halt_status }
            packet_number := packet_num, message_sequence_number := message_seq_num })
  else if message_type = 80 then
    -- chr P: Short Sale Price Test Status; bytes[18] read only if status valid
    match ShortSalePriceTestStatus.from_u8 message_subtype with
    | none => pure none
    | some short_sale_price_test_status => do
        let detail_byte ← byteAt bytes 18
        match Detail.from_u8 detail_byte with
        | none => pure none
        | some detail => do
            let symbol ← symbolAt bytes 10
            pure (some
              { message_type, message_subtype, timestamp
                body := IexDeepMessageImpl.ShortSalePriceTestStatus
                  { symbol, detail, short_sale_price_test_status }
                packet_number := packet_num, message_sequence_number := message_seq_num })
  else if message_type = 69 then
    -- chr E: Security Event
    match SecurityEvent.from_u8 message_subtype with
    | none => pure none
    | some security_event => do
        let symbol ← symbolAt bytes 10
        pure (some
          { message_type, message_subtype, timestamp
            body := IexDeepMessageImpl.SecurityEvent { symbol, security_event }
            packet_number := packet_num, message_sequence_number := message_seq_num })
  else if message_type = 56 ∨ message_type = 53 then
    -- chr 8 or chr 5: Price Level Update
    match PriceLevelUpdateEventFlags.from_u8 message_subtype with
    | none => pure none
    | some event_flags => do
        let symbol ← symbolAt bytes 10
        let size ← bytes_u32E bytes 18
        let price ← bytes_u64E bytes 22
        pure (some
          { message_type, message_subtype, timestamp
            body := IexDeepMessageImpl.PriceLevelUpdate
              { symbol, size, price, event_flags }
            packet_number := packet_num, message_sequence_number := message_seq_num })
  else if message_type = 84 then
    -- chr T: Trade Report; explicit 38-byte guard, println diagnostic on failure
    if 38 ≤ bytes.length then do
      let symbol ← symbolAt bytes 10
      let size ← bytes_u32E bytes 18
      let price ← bytes_u64E bytes 22
      let trade_id ← bytes_u64E bytes 30
      pure (some
        { message_type, message_subtype, timestamp
          body := IexDeepMessageImpl.TradeReport
            { symbol, size, price, trade_id, sale_condition_flags := message_subtype }
          packet_number := packet_num, message_sequence_number := message_seq_num })
    else
      pure none
  else if message_type = 88 then
    -- chr X: Official Price
    match PriceType.from_u8 message_subtype with
    | none => pure none
    | some price_type => do
        let symbol ← symbolAt bytes 10
        let official_price ← bytes_u64E bytes 18
        pure (some
          { message_type, message_subtype, timestamp
            body := IexDeepMessageImpl.OfficialPrice
              { symbol, official_price, price_type }
            packet_number := packet_num, message_sequence_number := message_seq_num })
  else if message_type = 66 then
    -- chr B: Trade Break; explicit 38-byte guard, println diagnostic on failure
    if 38 ≤ bytes.length then do
      let symbol ← symbolAt bytes 10
      let size ← bytes_u32E bytes 18
      let price ← bytes_u64E bytes 22
      let trade_id ← bytes_u64E bytes 30
      pure (some
        { message_type, message_subtype, timestamp
          body := IexDeepMessageImpl.TradeBreak
            { symbol, size, price, trade_id, sale_condition_flags := message_subtype }
          packet_number := packet_num, message_sequence_number := message_seq_num })
    else
      pure none
  else if message_type = 65 then
    -- chr A: Auction Information, intentionally unimplemented
    pure none
  else
    -- unknown message type: warn and reject
    pure none

/-- fn parse_message from the source: the unconditional reads of
`bytes[0]`, `bytes[1]` and the timestamp at `bytes[2..10]` (each of which
may panic on a short record), then the dispatch on the message type. -/
def parse_message (bytes : List Nat) (packet_num : Nat) (message_seq_num : Nat) :
    Except Unit (Option IexDeepMessage) := do
  let message_type ← byteAt bytes 0
  let message_subtype ← byteAt bytes 1
  let timestamp ← bytes_u64E bytes 2
  dispatch_message bytes packet_num message_seq_num message_type message_subtype timestamp

/-- The segmenter loop of fn parse_body.  `offset` and `message_seq_num` are
the loop state; the returned list is the `messages` vector.  A panic inside
`parse_message` propagates (the process dies). -/
def parse_body_go (bytes : List Nat) (packet_num : Nat) (offset seq : Nat) :
    Except Unit (List IexDeepMessage) :=
  if h : 2 + offset < bytes.length then
    -- message_length = bytes_u16!(bytes, offset), inlined below
    if hL : bytes_u16 bytes offset = 0 then
      -- 0-length message: warn and break
      Except.ok []
    else
      match parse_message (bytes.drop (offset + 2)) packet_num seq with
      | Except.error () => Except.error ()
      | Except.ok none =>
          -- failed to parse: warn, keep going
          parse_body_go bytes packet_num (offset + 2 + bytes_u16 bytes offset) (seq + 1)
      | Except.ok (some m) =>
          (parse_body_go bytes packet_num (offset + 2 + bytes_u16 bytes offset) (seq + 1)).map
            (fun rest => m :: rest)
  else Except.ok []
termination_by bytes.length - offset
decreasing_by
  all_goals omega

/-- fn parse_body from the source. -/
def parse_body (bytes : List Nat) (packet_num : Nat) (message_seq_num_start : Nat) :
    Except Unit (List IexDeepMessage) :=
  parse_body_go bytes packet_num 0 message_seq_num_start

/-- One attempted record of the segmenter loop: the cursor position of the
record (just past its 2-byte length prefix), the declared length, and the
sequence number assigned to the attempt. -/
structure SegmentAttempt where
  offset : Nat
  len : Nat
  seq : Nat
deriving DecidableEq, Repr

/-- The trace of records the segmenter loop attempts: one entry per
`parse_message` call, in order.  The trace ends at the 0-length sentinel, at
input exhaustion, or (with the panicking attempt as its last entry) when
`parse_message` panics. -/
def segmentAttempts_go (bytes : List Nat) (packet_num : Nat) (offset seq : Nat) :
    List SegmentAttempt :=
  if h : 2 + offset < bytes.length then
    if hL : bytes_u16 bytes offset = 0 then []
    else
      match parse_message (bytes.drop (offset + 2)) packet_num seq with
      | Except.error () => [⟨offset + 2, bytes_u16 bytes offset, seq⟩]
      | Except.ok _ =>
          ⟨offset + 2, bytes_u16 bytes offset, seq⟩ ::
            segmentAttempts_go bytes packet_num (offset + 2 + bytes_u16 bytes offset) (seq + 1)
  else []
termination_by bytes.length - offset
decreasing_by
  all_goals omega

/-- Attempt trace of a whole packet region. -/
def segmentAttempts (bytes : List Nat) (packet_num : Nat) (seq_start : Nat) :
    List SegmentAttempt :=
  segmentAttempts_go bytes packet_num 0 seq_start

/-- The decoded message an attempt contributes to the output, if any:
the segmenter hands `bytes.drop a.offset` (the whole remaining region,
exactly as `&bytes[offset..]` in the source) to `parse_message`. -/
def decodeOf (bytes : List Nat) (packet_num : Nat) (a : SegmentAttempt) :
    Option IexDeepMessage :=
  match parse_message (bytes.drop a.offset) packet_num a.seq with
  | Except.ok (some m) => some m
  | _ => none

/-- States (cursor, sequence number) the segmenter loop passes through,
starting from a given state, taking only non-panicking steps. -/
inductive SegReaches (bytes : List Nat) (packet_num : Nat) :
    Nat → Nat → Nat → Nat → Prop where
  | refl (offset seq : Nat) : SegReaches bytes packet_num offset seq offset seq
  | step {offset seq offEnd seqEnd : Nat} {r : Option IexDeepMessage}
      (hin : 2 + offset < bytes.length)
      (hL : bytes_u16 bytes offset ≠ 0)
      (hok : parse_message (bytes.drop (offset + 2)) packet_num seq = Except.ok r)
      (hrest : SegReaches bytes packet_num
        (offset + 2 + bytes_u16 bytes offset) (seq + 1) offEnd seqEnd) :
      SegReaches bytes packet_num offset seq offEnd seqEnd

/-- struct IexTpHeader from the source (40 bytes; send_time is libdt::UtcNs = u64). -/
structure IexTpHeader where
  version : Nat
  reserved : Nat
  message_protocol_id : Nat
  channel_id : Nat
  session_id : Nat
  payload_length : Nat
  message_count : Nat
  stream_offset : Nat
  first_message_sequence_number : Nat
  send_time : Nat
deriving DecidableEq, Repr

/-- fn parse_header from the source.  `size_of::<IexTpHeader>()` is 40
(1+1+2+4+4+2+2+8+8+8, asserted in the source); all reads are guarded by the
length check, so they are total here. -/
def parse_header (bytes : List Nat) : Option IexTpHeader :=
  if bytes.length < 40 then none
  else some
    { version := bytes.getD 0 0
      reserved := bytes.getD 1 0
      message_protocol_id := bytes_u16 bytes 2
      channel_id := bytes_u32 bytes 4
      session_id := bytes_u32 bytes 8
      payload_length := bytes_u16 bytes 12
      message_count := bytes_u16 bytes 14
      stream_offset := bytes_u64 bytes 16
      first_message_sequence_number := bytes_u64 bytes 24
      send_time := bytes_u64 bytes 32 }

/-- Little-endian serialization of `n` bytes of a value; the building block
of the re-encoder for the header round-trip property. -/
def leBytes : Nat → Nat → List Nat
  | 0, _ => []
  | n + 1, v => v % 256 :: leBytes n (v / 256)

/-- Modelled from the spec: the header re-encoder for the round-trip
property of section 8 (the source has no encoder).  It serializes the ten
fields byte-for-byte at the documented offsets 0,1,2,4,8,12,14,16,24,32 in
little-endian order. -/
def encode_header (h : IexTpHeader) : List Nat :=
  [h.version, h.reserved] ++
  leBytes 2 h.message_protocol_id ++
  leBytes 4 h.channel_id ++
  leBytes 4 h.session_id ++
  leBytes 2 h.payload_length ++
  leBytes 2 h.message_count ++
  leBytes 8 h.stream_offset ++
  leBytes 8 h.first_message_sequence_number ++
  leBytes 8 h.send_time

/-- struct libh5::Tick from the source: note it has no symbol field. -/
structure Tick where
  message_type : Nat
  message_subtype : Nat
  timestamp : Nat
  size : Nat
  price : Nat
  price_multiplier : Nat
  packet_number : Nat
  message_sequence_number : Nat
deriving DecidableEq, Repr

/-- fn get_price_multiplier_for_timestamp from the source. -/
def get_price_multiplier_for_timestamp (_timestamp : Nat) : Nat := 10000

/-- IexDeepMessage::to_serialized_tick from the source. -/
def IexDeepMessage.to_serialized_tick (self : IexDeepMessage) : Option Tick :=
  match self.body with
  | IexDeepMessageImpl.TradeReport m =>
      some { message_type := self.message_type
             message_subtype := self.message_subtype
             timestamp := self.timestamp
             size := m.size
             price := m.price
             price_multiplier := get_price_multiplier_for_timestamp self.timestamp
             packet_number := self.packet_number
             message_sequence_number := self.message_sequence_number }
  | IexDeepMessageImpl.PriceLevelUpdate m =>
      some { message_type := self.message_type
             message_subtype := self.message_subtype
             timestamp := self.timestamp
             size := m.size
             price := m.price
             price_multiplier := get_price_multiplier_for_timestamp self.timestamp
             packet_number := self.packet_number
             message_sequence_number := self.message_sequence_number }
  | _ => none

/-- IexDeepMessage::symbol from the source (the grouping key). -/
def IexDeepMessage.symbol (self : IexDeepMessage) : Option MessageSymbol :=
  match self.body with
  | IexDeepMessageImpl.TradeReport m => some m.symbol
  | IexDeepMessageImpl.PriceLevelUpdate m => some m.symbol
  | _ => none

/-- The per-packet step of the capture loop in fn main: parse the header
(panic if too short), assert version 1 and protocol id 0x8004 (panic on
mismatch), then segment the post-header region. -/
def process_packet (payload : List Nat) (packet_counter : Nat) :
    Except Unit (List IexDeepMessage) :=
  match parse_header payload with
  | none => Except.error ()
  | some hdr =>
      if hdr.version = 1 ∧ hdr.message_protocol_id = 32772 then
        parse_body (payload.drop 40) packet_counter hdr.first_message_sequence_number
      else Except.error ()

/-- The tick-collection loop of fn main over one packet: each message
that projects to a tick is paired with its symbol (panic if a projecting
message has no symbol, as in the source). -/
def tick_entries : List IexDeepMessage → Except Unit (List (MessageSymbol × Tick))
  | [] => Except.ok []
  | m :: rest =>
      match m.to_serialized_tick with
      | none => tick_entries rest
      | some t =>
          match m.symbol with
          | none => Except.error ()
          | some s => (tick_entries rest).map (fun l => (s, t) :: l)

/-- End-to-end per-packet pipeline: segment the packet and collect
symbol-keyed ticks. -/
def process_packet_ticks (payload : List Nat) (packet_counter : Nat) :
    Except Unit (List (MessageSymbol × Tick)) :=
  match process_packet payload packet_counter with
  | Except.error () => Except.error ()
  | Except.ok msgs => tick_entries msgs

/-- enum TradeDateFromFileErr from src/libfs/src/lib.rs. -/
inductive TradeDateFromFileErr where
  | WrongFileExtension
  | NoStem
  | InvalidUnicode
  | InvalidDate
deriving DecidableEq, Repr

/-- A calendar date as produced by chrono::NaiveDate::from_ymd. -/
structure NaiveDate where
  year : Nat
  month : Nat
  day : Nat
deriving DecidableEq, Repr

/-- Gregorian leap-year rule (chrono calendar validity). -/
def isLeapYear (y : Nat) : Bool :=
  y % 4 = 0 && (y % 100 != 0 || y % 400 = 0)

/-- Days in a month of the Gregorian calendar. -/
def daysInMonth (y m : Nat) : Nat :=
  if m = 2 then (if isLeapYear y then 29 else 28)
  else if m = 4 || m = 6 || m = 9 || m = 11 then 30
  else 31

/-- Numeric value of a digit string. -/
def digitsToNat (l : List Char) : Nat :=
  l.foldl (fun acc c => acc * 10 + (c.toNat - 48)) 0

/-- fn yyyymmdd_prefix_from_stem from src/libfs/src/lib.rs.  The call
chrono::NaiveDate::parse_from_str(stem, "%Y%m%d") is an external library;
it is modelled here for ASCII stems: exactly 8 digits parsed as a 4-2-2
year-month-day split validated against the Gregorian calendar, anything
else an error (chrono errors on non-digits, trailing input, and invalid
calendar components alike; the source maps every chrono error to
InvalidDate, and the repository tests in libfs pin this behavior on
8-digit stems, 20180229 rejected and 20180228 accepted). -/
def yyyymmdd_prefix_from_stem (stem : List Char) :
    Except TradeDateFromFileErr NaiveDate :=
  if stem.length = 8 ∧ stem.all Char.isDigit then
    let y := digitsToNat (stem.take 4)
    let m := digitsToNat ((stem.drop 4).take 2)
    let d := digitsToNat (stem.drop 6)
    if 1 ≤ m ∧ m ≤ 12 ∧ 1 ≤ d ∧ d ≤ daysInMonth y m then
      Except.ok { year := y, month := m, day := d }
    else Except.error TradeDateFromFileErr.InvalidDate
  else Except.error TradeDateFromFileErr.InvalidDate

/-- The final path component, with trailing path separators stripped
(std::path::Path semantics on the inputs the repository handles: the
component after the last separator). -/
def fileName (p : List Char) : List Char :=
  ((p.reverse.dropWhile (fun c => c == '/')).takeWhile (fun c => c != '/')).reverse

/-- std::path::Path::extension: the part of the file name after its last
dot, provided that dot is preceded by a nonempty prefix (a leading-dot
file such as .h5 has no extension). -/
def pathExtension (p : List Char) : Option (List Char) :=
  let name := fileName p
  let rext := name.reverse.takeWhile (fun c => c != '.')
  if rext.length + 2 ≤ name.length then some rext.reverse else none

/-- std::path::Path::file_stem: the file name up to its last dot when an
extension exists, the whole nonempty file name otherwise. -/
def pathFileStem (p : List Char) : Option (List Char) :=
  let name := fileName p
  if name.isEmpty then none
  else
    let rext := name.reverse.takeWhile (fun c => c != '.')
    if rext.length + 2 ≤ name.length then
      some (name.take (name.length - rext.length - 1))
    else some name

/-- fn trade_date_from_h5 from src/libfs/src/lib.rs.  The OsStr::to_str
step cannot fail on a Rust &str input (always valid UTF-8), so the
InvalidUnicode branch is unreachable and not modelled. -/
def trade_date_from_h5 (h5_path : List Char) :
    Except TradeDateFromFileErr NaiveDate :=
  match pathExtension h5_path with
  | none => Except.error TradeDateFromFileErr.WrongFileExtension
  | some ext =>
      if ext ≠ "h5".toList then Except.error TradeDateFromFileErr.WrongFileExtension
      else
        match pathFileStem h5_path with
        | none => Except.error TradeDateFromFileErr.NoStem
        | some stem => yyyymmdd_prefix_from_stem stem

/-- fn trade_date_from_deep_pcap from src/libiex/src/lib.rs.  The byte
slice &stem[0..8] panics when the stem is shorter than 8 bytes; the panic
is `Except.error ()` (ASCII stems assumed, as in every capture name the
repository handles). -/
def trade_date_from_deep_pcap (deep_pcap : List Char) :
    Except Unit (Except TradeDateFromFileErr NaiveDate) :=
  match pathExtension deep_pcap with
  | none => Except.ok (Except.error TradeDateFromFileErr.WrongFileExtension)
  | some ext =>
      if ext ≠ "pcap".toList ∧ ext ≠ "gz".toList then
        Except.ok (Except.error TradeDateFromFileErr.WrongFileExtension)
      else
        match pathFileStem deep_pcap with
        | none => Except.ok (Except.error TradeDateFromFileErr.NoStem)
        | some stem =>
            if stem.length < 8 then Except.error ()
            else Except.ok (yyyymmdd_prefix_from_stem (stem.take 8))

deriving instance DecidableEq for Except

def c6_r37 : List Nat := 84 :: List.replicate 36 7
def c6_r38 : List Nat := 66 :: 9 :: List.replicate 36 7

def c7_rS : List Nat := 83 :: 79 :: List.replicate 36 7

def c7_rU : List Nat := 90 :: 0 :: List.replicate 36 7

/-- A default attempt for positional lookups in attempt traces. -/
def dummyAttempt : SegmentAttempt := ⟨0, 0, 0⟩

def c1_r1 : List Nat := [2, 0, 84, 0] ++ List.replicate 36 0

def c1_r2 : List Nat := [2, 0, 84, 0] ++ List.replicate 8 0

def c1_msg : IexDeepMessage :=
  { message_type := 84, message_subtype := 0, timestamp := 0
    body := IexDeepMessageImpl.TradeReport
      { symbol := [0, 0, 0, 0, 0, 0, 0, 0], size := 0, price := 0, trade_id := 0
        sale_condition_flags := 0 }
    packet_number := 0, message_sequence_number := 0 }

def c3bytes : List Nat := [3, 0, 65, 0, 0, 3, 0, 65, 0, 0, 0, 0, 0, 0, 0, 0, 0]

def c4bytes : List Nat := [3, 0, 65, 0, 0, 0, 0, 0, 0, 0, 0, 0]

def c8bytes : List Nat := List.range 41

def c8hdr : IexTpHeader :=
  { version := 0, reserved := 1, message_protocol_id := 770
    channel_id := 117835012, session_id := 185207048
    payload_length := 3340, message_count := 3854
    stream_offset := 1663540288323457296
    first_message_sequence_number := 2242261671028070680
    send_time := 2820983053732684064 }

/-- The two priced message kinds: exactly these project to ticks. -/
def projects_to_tick : IexDeepMessageImpl → Prop
  | IexDeepMessageImpl.TradeReport _ => True
  | IexDeepMessageImpl.PriceLevelUpdate _ => True
  | _ => False

def c9_packet : List Nat :=
  [1, 0, 4, 128, 0, 0, 0, 0, 0, 0, 0, 0, 32, 0, 1, 0,
   0, 0, 0, 0, 0, 0, 0, 0, 100, 0, 0, 0, 0, 0, 0, 0,
   0, 0, 0, 0, 0, 0, 0, 0] ++
  [30, 0, 56, 1, 0, 0, 0, 0, 0, 0, 0, 0,
   90, 90, 90, 90, 90, 90, 90, 90, 244, 1, 0, 0,
   144, 178, 91, 7, 0, 0, 0, 0]

def c9_msg : IexDeepMessage :=
  { message_type := 56, message_subtype := 1, timestamp := 0
    body := IexDeepMessageImpl.PriceLevelUpdate
      { symbol := [90, 90, 90, 90, 90, 90, 90, 90], size := 500, price := 123450000
        event_flags := PriceLevelUpdateEventFlags.EventProcessingComplete }
    packet_number := 0, message_sequence_number := 100 }

def c9_tick : Tick :=
  { message_type := 56, message_subtype := 1, timestamp := 0, size := 500
    price := 123450000, price_multiplier := 10000, packet_number := 0
    message_sequence_number := 100 }

theorem except_ok_bind {ε α β : Type} (a : α) (f : α → Except ε β) :
    (Except.ok a >>= f : Except ε β) = f a := rfl

theorem except_err_bind {α β : Type} (f : α → Except Unit β) :
    (Except.error () >>= f : Except Unit β) = Except.error () := rfl

theorem except_pure_eq {ε α : Type} (a : α) : (pure a : Except ε α) = Except.ok a := rfl

theorem byteAt_ok {bytes : List Nat} {i : Nat} (h : i < bytes.length) :
    byteAt bytes i = Except.ok (bytes.getD i 0) := by
  simp [byteAt, List.getElem?_eq_getElem h, List.getD, Option.getD]

theorem byteAt_err {bytes : List Nat} {i : Nat} (h : bytes.length ≤ i) :
    byteAt bytes i = Except.error () := by
  simp [byteAt, List.getElem?_eq_none_iff.mpr h]

theorem bytes_u32E_ok {bytes : List Nat} {off : Nat} (h : off + 3 < bytes.length) :
    bytes_u32E bytes off = Except.ok (bytes_u32 bytes off) := by
  simp [bytes_u32E, h]

theorem bytes_u64E_ok {bytes : List Nat} {off : Nat} (h : off + 7 < bytes.length) :
    bytes_u64E bytes off = Except.ok (bytes_u64 bytes off) := by
  simp [bytes_u64E, h]

theorem bytes_u64E_err {bytes : List Nat} {off : Nat} (h : bytes.length ≤ off + 7) :
    bytes_u64E bytes off = Except.error () := by
  simp [bytes_u64E]
  omega

theorem symbolAt_ok {bytes : List Nat} (h : 17 < bytes.length) :
    symbolAt bytes 10 = Except.ok (symD bytes) := by
  simp [symbolAt, symD]
  omega

theorem parse_message_head {bytes : List Nat} {p q : Nat} (h : 9 < bytes.length) :
    parse_message bytes p q =
      dispatch_message bytes p q (bytes.getD 0 0) (bytes.getD 1 0) (bytes_u64 bytes 2) := by
  simp (disch := omega) only [parse_message, byteAt_ok, bytes_u64E_ok, except_ok_bind]

theorem parse_message_short {bytes : List Nat} {p q : Nat} (h : bytes.length ≤ 9) :
    parse_message bytes p q = Except.error () := by
  by_cases h0 : bytes.length ≤ 0
  · simp only [parse_message, byteAt_err h0, except_err_bind]
  · by_cases h1 : bytes.length ≤ 1
    · simp only [parse_message, byteAt_ok (show 0 < bytes.length by omega), byteAt_err h1,
        except_ok_bind, except_err_bind]
    · simp only [parse_message, byteAt_ok (show 0 < bytes.length by omega),
        byteAt_ok (show 1 < bytes.length by omega),
        bytes_u64E_err (show bytes.length ≤ 2 + 7 by omega), except_ok_bind, except_err_bind]

theorem dispatch_S {bytes : List Nat} {p q s ts : Nat} :
    dispatch_message bytes p q 83 s ts =
      Except.ok ((SystemEvent.from_u8 s).map (fun system_event =>
        { message_type := 83, message_subtype := s, timestamp := ts
          body := IexDeepMessageImpl.SystemEvent { system_event }
          packet_number := p, message_sequence_number := q })) := by
  unfold dispatch_message
  rw [if_pos (by decide)]
  cases hE : SystemEvent.from_u8 s
  · simp [hE, except_pure_eq]
  · simp only [except_pure_eq]
    rfl

theorem dispatch_D {bytes : List Nat} {p q s ts : Nat} (h : 30 < bytes.length) :
    dispatch_message bytes p q 68 s ts =
      Except.ok ((LimitUpLimitDownTier.from_u8 (bytes.getD 30 0)).map (fun luld_tier =>
        { message_type := 68, message_subtype := s, timestamp := ts
          body := IexDeepMessageImpl.SecurityDirectory
            { symbol := symD bytes, round_lot_size := bytes_u32 bytes 18
              adjusted_poc_price := bytes_u64 bytes 22, luld_tier, flags := s }
          packet_number := p, message_sequence_number := q })) := by
  unfold dispatch_message
  rw [if_neg (by decide), if_pos (by decide)]
  rw [byteAt_ok (show 30 < bytes.length by omega), except_ok_bind]
  cases hE : LimitUpLimitDownTier.from_u8 (bytes.getD 30 0)
  · simp [hE, except_pure_eq]
  · simp only [symbolAt_ok (show 17 < bytes.length by omega),
      bytes_u32E_ok (show 18 + 3 < bytes.length by omega),
      bytes_u64E_ok (show 22 + 7 < bytes.length by omega),
      except_ok_bind, except_pure_eq]
    rfl

theorem dispatch_D_short {bytes : List Nat} {p q s ts : Nat} (h : bytes.length ≤ 30) :
    dispatch_message bytes p q 68 s ts = Except.error () := by
  unfold dispatch_message
  rw [if_neg (by decide), if_pos (by decide)]
  rw [byteAt_err h, except_err_bind]

theorem dispatch_H {bytes : List Nat} {p q s ts : Nat} (h : 21 < bytes.length) :
    dispatch_message bytes p q 72 s ts =
      Except.ok ((TradingStatus.from_u8 s).map (fun trading_status =>
        { message_type := 72, message_subtype := s, timestamp := ts
          body := IexDeepMessageImpl.TradingStatus
            { symbol := symD bytes, reason := reasonD bytes, trading_status }
          packet_number := p, message_sequence_number := q })) := by
  unfold dispatch_message
  rw [if_neg (by decide), if_neg (by decide), if_pos (by decide)]
  cases hE : TradingStatus.from_u8 s
  · simp [hE, except_pure_eq]
  · simp only [symbolAt_ok (show 17 < bytes.length by omega),
      byteAt_ok (show 18 < bytes.length by omega),
      byteAt_ok (show 19 < bytes.length by omega),
      byteAt_ok (show 20 < bytes.length by omega),
      byteAt_ok (show 21 < bytes.length by omega),
      except_ok_bind, except_pure_eq, reasonD]
    rfl

theorem dispatch_O {bytes : List Nat} {p q s ts : Nat} (h : 17 < bytes.length) :
    dispatch_message bytes p q 79 s ts =
      Except.ok ((OperationalHaltStatus.from_u8 s).map (fun operational_halt_status =>
        { message_type := 79, message_subtype := s, timestamp := ts
          body := IexDeepMessageImpl.OperationalHaltStatus
            { symbol := symD bytes, operational_halt_status }
          packet_number := p, message_sequence_number := q })) := by
  unfold dispatch_message
  rw [if_neg (by decide), if_neg (by decide), if_neg (by decide), if_pos (by decide)]
  cases hE : OperationalHaltStatus.from_u8 s
  · simp [hE, except_pure_eq]
  · simp only [symbolAt_ok (show 17 < bytes.length by omega), except_ok_bind, except_pure_eq]
    rfl

theorem dispatch_P {bytes : List Nat} {p q s ts : Nat} (h : 18 < bytes.length) :
    dispatch_message bytes p q 80 s ts =
      Except.ok ((ShortSalePriceTestStatus.from_u8 s).bind
        (fun short_sale_price_test_status =>
          (Detail.from_u8 (bytes.getD 18 0)).map (fun detail =>
            { message_type := 80, message_subtype := s, timestamp := ts
              body := IexDeepMessageImpl.ShortSalePriceTestStatus
                { symbol := symD bytes, detail, short_sale_price_test_status }
              packet_number := p, message_sequence_number := q }))) := by
  unfold dispatch_message
  rw [if_neg (by decide), if_neg (by decide), if_neg (by decide), if_neg (by decide),
    if_pos (by decide)]
  cases hS : ShortSalePriceTestStatus.from_u8 s
  · simp [hS, except_pure_eq]
  · simp only [byteAt_ok (show 18 < bytes.length by omega), except_ok_bind]
    cases hD : Detail.from_u8 (bytes.getD 18 0)
    · simp [hD, except_pure_eq]
    · simp only [symbolAt_ok (show 17 < bytes.length by omega), except_ok_bind,
        except_pure_eq]
      rfl

theorem dispatch_E {bytes : List Nat} {p q s ts : Nat} (h : 17 < bytes.length) :
    dispatch_message bytes p q 69 s ts =
      Except.ok ((SecurityEvent.from_u8 s).map (fun security_event =>
        { message_type := 69, message_subtype := s, timestamp := ts
          body := IexDeepMessageImpl.SecurityEvent { symbol := symD bytes, security_event }
          packet_number := p, message_sequence_number := q })) := by
  unfold dispatch_message
  rw [if_neg (by decide), if_neg (by decide), if_neg (by decide), if_neg (by decide),
    if_neg (by decide), if_pos (by decide)]
  cases hE : SecurityEvent.from_u8 s
  · simp [hE, except_pure_eq]
  · simp only [symbolAt_ok (show 17 < bytes.length by omega), except_ok_bind, except_pure_eq]
    rfl

theorem dispatch_PLU {bytes : List Nat} {t p q s ts : Nat} (ht : t = 56 ∨ t = 53)
    (h : 29 < bytes.length) :
    dispatch_message bytes p q t s ts =
      Except.ok ((PriceLevelUpdateEventFlags.from_u8 s).map (fun event_flags =>
        { message_type := t, message_subtype := s, timestamp := ts
          body := IexDeepMessageImpl.PriceLevelUpdate
            { symbol := symD bytes, size := bytes_u32 bytes 18
              price := bytes_u64 bytes 22, event_flags }
          packet_number := p, message_sequence_number := q })) := by
  rcases ht with rfl | rfl <;>
  · unfold dispatch_message
    rw [if_neg (by decide), if_neg (by decide), if_neg (by decide), if_neg (by decide),
      if_neg (by decide), if_neg (by decide), if_pos (by decide)]
    cases hE : PriceLevelUpdateEventFlags.from_u8 s
    · simp [hE, except_pure_eq]
    · simp only [symbolAt_ok (show 17 < bytes.length by omega),
        bytes_u32E_ok (show 18 + 3 < bytes.length by omega),
        bytes_u64E_ok (show 22 + 7 < bytes.length by omega),
        except_ok_bind, except_pure_eq]
      rfl

theorem dispatch_T {bytes : List Nat} {p q s ts : Nat} (h38 : 38 ≤ bytes.length) :
    dispatch_message bytes p q 84 s ts =
      Except.ok (some
        { message_type := 84, message_subtype := s, timestamp := ts
          body := IexDeepMessageImpl.TradeReport
            { symbol := symD bytes, size := bytes_u32 bytes 18
              price := bytes_u64 bytes 22, trade_id := bytes_u64 bytes 30
              sale_condition_flags := s }
          packet_number := p, message_sequence_number := q }) := by
  unfold dispatch_message
  rw [if_neg (by decide), if_neg (by decide), if_neg (by decide), if_neg (by decide),
    if_neg (by decide), if_neg (by decide), if_neg (by decide), if_pos (by decide),
    if_pos h38]
  simp only [symbolAt_ok (show 17 < bytes.length by omega),
    bytes_u32E_ok (show 18 + 3 < bytes.length by omega),
    bytes_u64E_ok (show 22 + 7 < bytes.length by omega),
    bytes_u64E_ok (show 30 + 7 < bytes.length by omega),
    except_ok_bind, except_pure_eq]

theorem dispatch_T_reject {bytes : List Nat} {p q s ts : Nat} (h38 : bytes.length < 38) :
    dispatch_message bytes p q 84 s ts = Except.ok none := by
  unfold dispatch_message
  rw [if_neg (by decide), if_neg (by decide), if_neg (by decide), if_neg (by decide),
    if_neg (by decide), if_neg (by decide), if_neg (by decide), if_pos (by decide),
    if_neg (by omega)]
  rfl

theorem dispatch_X {bytes : List Nat} {p q s ts : Nat} (h : 25 < bytes.length) :
    dispatch_message bytes p q 88 s ts =
      Except.ok ((PriceType.from_u8 s).map (fun price_type =>
        { message_type := 88, message_subtype := s, timestamp := ts
          body := IexDeepMessageImpl.OfficialPrice
            { symbol := symD bytes, official_price := bytes_u64 bytes 18, price_type }
          packet_number := p, message_sequence_number := q })) := by
  unfold dispatch_message
  rw [if_neg (by decide), if_neg (by decide), if_neg (by decide), if_neg (by decide),
    if_neg (by decide), if_neg (by decide), if_neg (by decide), if_neg (by decide),
    if_pos (by decide)]
  cases hE : PriceType.from_u8 s
  · simp [hE, except_pure_eq]
  · simp only [symbolAt_ok (show 17 < bytes.length by omega),
      bytes_u64E_ok (show 18 + 7 < bytes.length by omega), except_ok_bind, except_pure_eq]
    rfl

theorem dispatch_B {bytes : List Nat} {p q s ts : Nat} (h38 : 38 ≤ bytes.length) :
    dispatch_message bytes p q 66 s ts =
      Except.ok (some
        { message_type := 66, message_subtype := s, timestamp := ts
          body := IexDeepMessageImpl.TradeBreak
            { symbol := symD bytes, size := bytes_u32 bytes 18
              price := bytes_u64 bytes 22, trade_id := bytes_u64 bytes 30
              sale_condition_flags := s }
          packet_number := p, message_sequence_number := q }) := by
  unfold dispatch_message
  rw [if_neg (by decide), if_neg (by decide), if_neg (by decide), if_neg (by decide),
    if_neg (by decide), if_neg (by decide), if_neg (by decide), if_neg (by decide),
    if_neg (by decide), if_pos (by decide), if_pos h38]
  simp only [symbolAt_ok (show 17 < bytes.length by omega),
    bytes_u32E_ok (show 18 + 3 < bytes.length by omega),
    bytes_u64E_ok (show 22 + 7 < bytes.length by omega),
    bytes_u64E_ok (show 30 + 7 < bytes.length by omega),
    except_ok_bind, except_pure_eq]

theorem dispatch_B_reject {bytes : List Nat} {p q s ts : Nat} (h38 : bytes.length < 38) :
    dispatch_message bytes p q 66 s ts = Except.ok none := by
  unfold dispatch_message
  rw [if_neg (by decide), if_neg (by decide), if_neg (by decide), if_neg (by decide),
    if_neg (by decide), if_neg (by decide), if_neg (by decide), if_neg (by decide),
    if_neg (by decide), if_pos (by decide), if_neg (by omega)]
  rfl

theorem dispatch_A {bytes : List Nat} {p q s ts : Nat} :
    dispatch_message bytes p q 65 s ts = Except.ok none := by
  unfold dispatch_message
  rw [if_neg (by decide), if_neg (by decide), if_neg (by decide), if_neg (by decide),
    if_neg (by decide), if_neg (by decide), if_neg (by decide), if_neg (by decide),
    if_neg (by decide), if_neg (by decide), if_pos (by decide)]
  rfl

theorem dispatch_unknown {bytes : List Nat} {t p q s ts : Nat}
    (ht : t ∉ ([83, 68, 72, 79, 80, 69, 56, 53, 84, 88, 66, 65] : List Nat)) :
    dispatch_message bytes p q t s ts = Except.ok none := by
  simp only [List.mem_cons, List.not_mem_nil, or_false, not_or] at ht
  obtain ⟨n1, n2, n3, n4, n5, n6, n7, n8, n9, n10, n11, n12⟩ := ht
  unfold dispatch_message
  rw [if_neg n1, if_neg n2, if_neg n3, if_neg n4, if_neg n5, if_neg n6,
    if_neg (by simp [n7, n8]), if_neg n9, if_neg n10, if_neg n11, if_neg n12]
  rfl

theorem systemEvent_from_u8_none {s : Nat} (h : s ∉ ([79, 83, 82, 77, 69, 67] : List Nat)) :
    SystemEvent.from_u8 s = none := by
  simp only [List.mem_cons, List.not_mem_nil, or_false, not_or] at h
  obtain ⟨h1, h2, h3, h4, h5, h6⟩ := h
  simp [SystemEvent.from_u8, h1, h2, h3, h4, h5, h6]

theorem luldTier_from_u8_none {s : Nat} (h : s ∉ ([0, 1, 2] : List Nat)) :
    LimitUpLimitDownTier.from_u8 s = none := by
  simp only [List.mem_cons, List.not_mem_nil, or_false, not_or] at h
  obtain ⟨h1, h2, h3⟩ := h
  simp [LimitUpLimitDownTier.from_u8, h1, h2, h3]

theorem tradingStatus_from_u8_none {s : Nat} (h : s ∉ ([72, 79, 80, 84] : List Nat)) :
    TradingStatus.from_u8 s = none := by
  simp only [List.mem_cons, List.not_mem_nil, or_false, not_or] at h
  obtain ⟨h1, h2, h3, h4⟩ := h
  simp [TradingStatus.from_u8, h1, h2, h3, h4]

theorem operationalHalt_from_u8_none {s : Nat} (h : s ∉ ([79, 78] : List Nat)) :
    OperationalHaltStatus.from_u8 s = none := by
  simp only [List.mem_cons, List.not_mem_nil, or_false, not_or] at h
  obtain ⟨h1, h2⟩ := h
  simp [OperationalHaltStatus.from_u8, h1, h2]

theorem shortSaleStatus_from_u8_none {s : Nat} (h : s ∉ ([0, 1] : List Nat)) :
    ShortSalePriceTestStatus.from_u8 s = none := by
  simp only [List.mem_cons, List.not_mem_nil, or_false, not_or] at h
  obtain ⟨h1, h2⟩ := h
  simp [ShortSalePriceTestStatus.from_u8, h1, h2]

theorem detail_from_u8_none {s : Nat} (h : s ∉ ([32, 65, 67, 68, 78] : List Nat)) :
    Detail.from_u8 s = none := by
  simp only [List.mem_cons, List.not_mem_nil, or_false, not_or] at h
  obtain ⟨h1, h2, h3, h4, h5⟩ := h
  simp [Detail.from_u8, h1, h2, h3, h4, h5]

theorem securityEvent_from_u8_none {s : Nat} (h : s ∉ ([79, 67] : List Nat)) :
    SecurityEvent.from_u8 s = none := by
  simp only [List.mem_cons, List.not_mem_nil, or_false, not_or] at h
  obtain ⟨h1, h2⟩ := h
  simp [SecurityEvent.from_u8, h1, h2]

theorem pluFlags_from_u8_none {s : Nat} (h : s ∉ ([0, 1] : List Nat)) :
    PriceLevelUpdateEventFlags.from_u8 s = none := by
  simp only [List.mem_cons, List.not_mem_nil, or_false, not_or] at h
  obtain ⟨h1, h2⟩ := h
  simp [PriceLevelUpdateEventFlags.from_u8, h1, h2]

theorem priceType_from_u8_none {s : Nat} (h : s ∉ ([81, 77] : List Nat)) :
    PriceType.from_u8 s = none := by
  simp only [List.mem_cons, List.not_mem_nil, or_false, not_or] at h
  obtain ⟨h1, h2⟩ := h
  simp [PriceType.from_u8, h1, h2]

/-- Claim C6: Trade Report (type T) and Trade Break (type B) records of
length 37 are rejected by the Message Decoder (it returns `Except.ok none`,
after the println diagnostic in the source), while records of length 38 are
accepted, decoding the symbol at offset 10, the u32 size at offset 18, the
u64 price at offset 22 and the u64 trade id at offset 30, with the subtype
byte kept as the raw sale-condition flags. -/
theorem claim_C6 (bytes : List Nat) (p q : Nat) :
    (bytes.getD 0 0 = 84 → bytes.length = 37 → parse_message bytes p q = Except.ok none) ∧
    (bytes.getD 0 0 = 66 → bytes.length = 37 → parse_message bytes p q = Except.ok none) ∧
    (bytes.getD 0 0 = 84 → bytes.length = 38 →
      parse_message bytes p q = Except.ok (some
        { message_type := 84, message_subtype := bytes.getD 1 0
          timestamp := bytes_u64 bytes 2
          body := IexDeepMessageImpl.TradeReport
            { symbol := symD bytes, size := bytes_u32 bytes 18
              price := bytes_u64 bytes 22, trade_id := bytes_u64 bytes 30
              sale_condition_flags := bytes.getD 1 0 }
          packet_number := p, message_sequence_number := q })) ∧
    (bytes.getD 0 0 = 66 → bytes.length = 38 →
      parse_message bytes p q = Except.ok (some
        { message_type := 66, message_subtype := bytes.getD 1 0
          timestamp := bytes_u64 bytes 2
          body := IexDeepMessageImpl.TradeBreak
            { symbol := symD bytes, size := bytes_u32 bytes 18
              price := bytes_u64 bytes 22, trade_id := bytes_u64 bytes 30
              sale_condition_flags := bytes.getD 1 0 }
          packet_number := p, message_sequence_number := q })) := by
  refine ⟨fun ht hlen => ?_, fun ht hlen => ?_, fun ht hlen => ?_, fun ht hlen => ?_⟩ <;>
    rw [parse_message_head (by omega), ht]
  · exact dispatch_T_reject (by omega)
  · exact dispatch_B_reject (by omega)
  · exact dispatch_T (by omega)
  · exact dispatch_B (by omega)

theorem claim_C6_witness :
    parse_message c6_r37 0 0 = Except.ok none ∧
    parse_message c6_r38 1 2 = Except.ok (some
      { message_type := 66, message_subtype := 9
        timestamp := 506381209866536711
        body := IexDeepMessageImpl.TradeBreak
          { symbol := [7, 7, 7, 7, 7, 7, 7, 7], size := 117901063
            price := 506381209866536711, trade_id := 506381209866536711
            sale_condition_flags := 9 }
        packet_number := 1, message_sequence_number := 2 }) := by
  constructor
  · exact (claim_C6 c6_r37 0 0).1 (by decide) (by decide)
  · rw [(claim_C6 c6_r38 1 2).2.2.2 (by decide) (by decide)]
    decide

/-- Claim C7: for every supported message type, a record with a valid
subtype or code byte (System Event subtype in O,S,R,M,E,C; Security
Directory tier byte at offset 30 in 0,1,2; Trading Status in H,O,P,T;
Operational Halt in O,N; Short-Sale Price Test subtype in 0,1 with detail
byte at 18 in space,A,C,D,N; Security Event in O,C; Price Level Update
subtype in 0,1; Official Price in Q,M) decodes to the corresponding variant
whose fields equal the literal input bytes at the documented offsets, the
same record with an invalid subtype or code byte is rejected, message type
A is always rejected, and an unknown type byte is rejected.  Each conjunct
assumes the record is at least as long as that documented type layout. -/
theorem claim_C7 (bytes : List Nat) (p q : Nat) :
    -- chr S: System Event, subtype in chr O S R M E C (minimal record: 10 bytes)
    (10 ≤ bytes.length → bytes.getD 0 0 = 83 →
      bytes.getD 1 0 ∈ ([79, 83, 82, 77, 69, 67] : List Nat) →
      ∃ e, SystemEvent.from_u8 (bytes.getD 1 0) = some e ∧
        parse_message bytes p q = Except.ok (some
          ⟨83, bytes.getD 1 0, bytes_u64 bytes 2,
           IexDeepMessageImpl.SystemEvent ⟨e⟩, p, q⟩)) ∧
    (10 ≤ bytes.length → bytes.getD 0 0 = 83 →
      bytes.getD 1 0 ∉ ([79, 83, 82, 77, 69, 67] : List Nat) →
      parse_message bytes p q = Except.ok none) ∧
    -- chr D: Security Directory, tier byte at offset 30 in 0 1 2 (31 bytes)
    (31 ≤ bytes.length → bytes.getD 0 0 = 68 →
      bytes.getD 30 0 ∈ ([0, 1, 2] : List Nat) →
      ∃ tier, LimitUpLimitDownTier.from_u8 (bytes.getD 30 0) = some tier ∧
        parse_message bytes p q = Except.ok (some
          ⟨68, bytes.getD 1 0, bytes_u64 bytes 2,
           IexDeepMessageImpl.SecurityDirectory
             ⟨symD bytes, bytes_u32 bytes 18, bytes_u64 bytes 22, tier, bytes.getD 1 0⟩,
           p, q⟩)) ∧
    (31 ≤ bytes.length → bytes.getD 0 0 = 68 →
      bytes.getD 30 0 ∉ ([0, 1, 2] : List Nat) →
      parse_message bytes p q = Except.ok none) ∧
    -- chr H: Trading Status, subtype in chr H O P T (22 bytes)
    (22 ≤ bytes.length → bytes.getD 0 0 = 72 →
      bytes.getD 1 0 ∈ ([72, 79, 80, 84] : List Nat) →
      ∃ st, TradingStatus.from_u8 (bytes.getD 1 0) = some st ∧
        parse_message bytes p q = Except.ok (some
          ⟨72, bytes.getD 1 0, bytes_u64 bytes 2,
           IexDeepMessageImpl.TradingStatus ⟨symD bytes, reasonD bytes, st⟩, p, q⟩)) ∧
    (22 ≤ bytes.length → bytes.getD 0 0 = 72 →
      bytes.getD 1 0 ∉ ([72, 79, 80, 84] : List Nat) →
      parse_message bytes p q = Except.ok none) ∧
    -- chr O: Operational Halt, subtype in chr O N (18 bytes)
    (18 ≤ bytes.length → bytes.getD 0 0 = 79 →
      bytes.getD 1 0 ∈ ([79, 78] : List Nat) →
      ∃ st, OperationalHaltStatus.from_u8 (bytes.getD 1 0) = some st ∧
        parse_message bytes p q = Except.ok (some
          ⟨79, bytes.getD 1 0, bytes_u64 bytes 2,
           IexDeepMessageImpl.OperationalHaltStatus ⟨symD bytes, st⟩, p, q⟩)) ∧
    (18 ≤ bytes.length → bytes.getD 0 0 = 79 →
      bytes.getD 1 0 ∉ ([79, 78] : List Nat) →
      parse_message bytes p q = Except.ok none) ∧
    -- chr P: Short Sale Price Test, subtype in 0 1, detail byte 18 in
    -- chr space A C D N (19 bytes)
    (19 ≤ bytes.length → bytes.getD 0 0 = 80 → bytes.getD 1 0 ∈ ([0, 1] : List Nat) →
      bytes.getD 18 0 ∈ ([32, 65, 67, 68, 78] : List Nat) →
      ∃ st d, ShortSalePriceTestStatus.from_u8 (bytes.getD 1 0) = some st ∧
        Detail.from_u8 (bytes.getD 18 0) = some d ∧
        parse_message bytes p q = Except.ok (some
          ⟨80, bytes.getD 1 0, bytes_u64 bytes 2,
           IexDeepMessageImpl.ShortSalePriceTestStatus ⟨symD bytes, d, st⟩, p, q⟩)) ∧
    (19 ≤ bytes.length → bytes.getD 0 0 = 80 → bytes.getD 1 0 ∉ ([0, 1] : List Nat) →
      parse_message bytes p q = Except.ok none) ∧
    (19 ≤ bytes.length → bytes.getD 0 0 = 80 → bytes.getD 1 0 ∈ ([0, 1] : List Nat) →
      bytes.getD 18 0 ∉ ([32, 65, 67, 68, 78] : List Nat) →
      parse_message bytes p q = Except.ok none) ∧
    -- chr E: Security Event, subtype in chr O C (18 bytes)
    (18 ≤ bytes.length → bytes.getD 0 0 = 69 →
      bytes.getD 1 0 ∈ ([79, 67] : List Nat) →
      ∃ e, SecurityEvent.from_u8 (bytes.getD 1 0) = some e ∧
        parse_message bytes p q = Except.ok (some
          ⟨69, bytes.getD 1 0, bytes_u64 bytes 2,
           IexDeepMessageImpl.SecurityEvent ⟨symD bytes, e⟩, p, q⟩)) ∧
    (18 ≤ bytes.length → bytes.getD 0 0 = 69 →
      bytes.getD 1 0 ∉ ([79, 67] : List Nat) →
      parse_message bytes p q = Except.ok none) ∧
    -- chr 8 or chr 5: Price Level Update, subtype in 0 1 (30 bytes)
    (30 ≤ bytes.length → (bytes.getD 0 0 = 56 ∨ bytes.getD 0 0 = 53) →
      bytes.getD 1 0 ∈ ([0, 1] : List Nat) →
      ∃ f, PriceLevelUpdateEventFlags.from_u8 (bytes.getD 1 0) = some f ∧
        parse_message bytes p q = Except.ok (some
          ⟨bytes.getD 0 0, bytes.getD 1 0, bytes_u64 bytes 2,
           IexDeepMessageImpl.PriceLevelUpdate
             ⟨symD bytes, bytes_u32 bytes 18, bytes_u64 bytes 22, f⟩, p, q⟩)) ∧
    (30 ≤ bytes.length → (bytes.getD 0 0 = 56 ∨ bytes.getD 0 0 = 53) →
      bytes.getD 1 0 ∉ ([0, 1] : List Nat) →
      parse_message bytes p q = Except.ok none) ∧
    -- chr X: Official Price, subtype in chr Q M (26 bytes)
    (26 ≤ bytes.length → bytes.getD 0 0 = 88 →
      bytes.getD 1 0 ∈ ([81, 77] : List Nat) →
      ∃ pt, PriceType.from_u8 (bytes.getD 1 0) = some pt ∧
        parse_message bytes p q = Except.ok (some
          ⟨88, bytes.getD 1 0, bytes_u64 bytes 2,
           IexDeepMessageImpl.OfficialPrice ⟨symD bytes, bytes_u64 bytes 18, pt⟩, p, q⟩)) ∧
    (26 ≤ bytes.length → bytes.getD 0 0 = 88 →
      bytes.getD 1 0 ∉ ([81, 77] : List Nat) →
      parse_message bytes p q = Except.ok none) ∧
    -- chr A: Auction Information, always rejected
    (10 ≤ bytes.length → bytes.getD 0 0 = 65 → parse_message bytes p q = Except.ok none) ∧
    -- unknown type byte: rejected
    (10 ≤ bytes.length →
      bytes.getD 0 0 ∉ ([83, 68, 72, 79, 80, 69, 56, 53, 84, 88, 66, 65] : List Nat) →
      parse_message bytes p q = Except.ok none) := by
  refine ⟨?_, ?_, ?_, ?_, ?_, ?_, ?_, ?_, ?_, ?_, ?_, ?_, ?_, ?_, ?_, ?_, ?_, ?_, ?_⟩
  -- S valid
  · intro hlen ht hm
    rw [parse_message_head (by omega), ht, dispatch_S]
    simp only [List.mem_cons, List.not_mem_nil, or_false] at hm
    rcases hm with h | h | h | h | h | h <;> rw [h] <;> exact ⟨_, rfl, rfl⟩
  -- S invalid
  · intro hlen ht hm
    rw [parse_message_head (by omega), ht, dispatch_S, systemEvent_from_u8_none hm]
    rfl
  -- D valid
  · intro hlen ht hm
    rw [parse_message_head (by omega), ht, dispatch_D (by omega)]
    simp only [List.mem_cons, List.not_mem_nil, or_false] at hm
    rcases hm with h | h | h <;> rw [h] <;> exact ⟨_, rfl, rfl⟩
  -- D invalid
  · intro hlen ht hm
    rw [parse_message_head (by omega), ht, dispatch_D (by omega),
      luldTier_from_u8_none hm]
    rfl
  -- H valid
  · intro hlen ht hm
    rw [parse_message_head (by omega), ht, dispatch_H (by omega)]
    simp only [List.mem_cons, List.not_mem_nil, or_false] at hm
    rcases hm with h | h | h | h <;> rw [h] <;> exact ⟨_, rfl, rfl⟩
  -- H invalid
  · intro hlen ht hm
    rw [parse_message_head (by omega), ht, dispatch_H (by omega),
      tradingStatus_from_u8_none hm]
    rfl
  -- O valid
  · intro hlen ht hm
    rw [parse_message_head (by omega), ht, dispatch_O (by omega)]
    simp only [List.mem_cons, List.not_mem_nil, or_false] at hm
    rcases hm with h | h <;> rw [h] <;> exact ⟨_, rfl, rfl⟩
  -- O invalid
  · intro hlen ht hm
    rw [parse_message_head (by omega), ht, dispatch_O (by omega),
      operationalHalt_from_u8_none hm]
    rfl
  -- P both valid
  · intro hlen ht hs hd
    rw [parse_message_head (by omega), ht, dispatch_P (by omega)]
    simp only [List.mem_cons, List.not_mem_nil, or_false] at hs hd
    rcases hs with h | h <;> rcases hd with h2 | h2 | h2 | h2 | h2 <;> rw [h, h2] <;>
      exact ⟨_, _, rfl, rfl, rfl⟩
  -- P invalid status
  · intro hlen ht hs
    rw [parse_message_head (by omega), ht, dispatch_P (by omega),
      shortSaleStatus_from_u8_none hs]
    rfl
  -- P invalid detail
  · intro hlen ht hs hd
    rw [parse_message_head (by omega), ht, dispatch_P (by omega),
      detail_from_u8_none hd]
    simp only [List.mem_cons, List.not_mem_nil, or_false] at hs
    rcases hs with h | h <;> rw [h] <;> rfl
  -- E valid
  · intro hlen ht hm
    rw [parse_message_head (by omega), ht, dispatch_E (by omega)]
    simp only [List.mem_cons, List.not_mem_nil, or_false] at hm
    rcases hm with h | h <;> rw [h] <;> exact ⟨_, rfl, rfl⟩
  -- E invalid
  · intro hlen ht hm
    rw [parse_message_head (by omega), ht, dispatch_E (by omega),
      securityEvent_from_u8_none hm]
    rfl
  -- PLU valid
  · intro hlen ht hm
    simp only [List.mem_cons, List.not_mem_nil, or_false] at hm
    rcases ht with h0 | h0 <;>
      rw [parse_message_head (by omega), h0,
        dispatch_PLU (by simp) (by omega)] <;>
      rcases hm with h | h <;> rw [h] <;> exact ⟨_, rfl, rfl⟩
  -- PLU invalid
  · intro hlen ht hm
    rcases ht with h0 | h0 <;>
      rw [parse_message_head (by omega), h0, dispatch_PLU (by simp) (by omega),
        pluFlags_from_u8_none hm] <;> rfl
  -- X valid
  · intro hlen ht hm
    rw [parse_message_head (by omega), ht, dispatch_X (by omega)]
    simp only [List.mem_cons, List.not_mem_nil, or_false] at hm
    rcases hm with h | h <;> rw [h] <;> exact ⟨_, rfl, rfl⟩
  -- X invalid
  · intro hlen ht hm
    rw [parse_message_head (by omega), ht, dispatch_X (by omega),
      priceType_from_u8_none hm]
    rfl
  -- A
  · intro hlen ht
    rw [parse_message_head (by omega), ht, dispatch_A]
  -- unknown
  · intro hlen hm
    rw [parse_message_head (by omega), dispatch_unknown hm]

theorem claim_C7_witness :
    (∃ e, SystemEvent.from_u8 (c7_rS.getD 1 0) = some e ∧
      parse_message c7_rS 3 4 = Except.ok (some
        ⟨83, c7_rS.getD 1 0, bytes_u64 c7_rS 2,
         IexDeepMessageImpl.SystemEvent ⟨e⟩, 3, 4⟩)) ∧
    parse_message c7_rU 0 0 = Except.ok none := by
  constructor
  · exact (claim_C7 c7_rS 3 4).1 (by decide) (by decide) (by decide)
  · exact (claim_C7 c7_rU 0 0).2.2.2.2.2.2.2.2.2.2.2.2.2.2.2.2.2.2
      (by decide) (by decide)

/-- Counterexample to claim C2 as stated: the Message Decoder does NOT
defend against short input in general.  On the empty slice it reads
`bytes[0]` out of bounds (a Rust panic, `Except.error ()`), and a Security
Directory record of 30 bytes panics reading the tier byte `bytes[30]`. -/
theorem claim_C2_counterexample :
    parse_message [] 0 0 = Except.error () ∧
    parse_message (68 :: List.replicate 29 0) 0 0 = Except.error () := by
  constructor <;> decide

/-- Claim C2 amended: the Decoder defends against short input only via the
explicit 38-byte guard of the T and B arms.  Any slice shorter than 10
bytes panics on the unconditional common-prefix reads; a D record of 10 to
30 bytes panics reading the tier byte at offset 30; every slice of at
least 38 bytes is processed without any out-of-bounds access; and T or B
records of 10 to 37 bytes are rejected without out-of-bounds access. -/
theorem claim_C2 (bytes : List Nat) (p q : Nat) :
    (bytes.length < 10 → parse_message bytes p q = Except.error ()) ∧
    (38 ≤ bytes.length → ∃ r, parse_message bytes p q = Except.ok r) ∧
    (bytes.getD 0 0 = 68 → 10 ≤ bytes.length → bytes.length ≤ 30 →
      parse_message bytes p q = Except.error ()) ∧
    ((bytes.getD 0 0 = 84 ∨ bytes.getD 0 0 = 66) → 10 ≤ bytes.length →
      bytes.length < 38 → parse_message bytes p q = Except.ok none) := by
  refine ⟨?_, ?_, ?_, ?_⟩
  · intro h
    exact parse_message_short (by omega)
  · intro h38
    rw [parse_message_head (by omega)]
    by_cases h1 : bytes.getD 0 0 = 83
    · rw [h1, dispatch_S]; exact ⟨_, rfl⟩
    by_cases h2 : bytes.getD 0 0 = 68
    · rw [h2, dispatch_D (by omega)]; exact ⟨_, rfl⟩
    by_cases h3 : bytes.getD 0 0 = 72
    · rw [h3, dispatch_H (by omega)]; exact ⟨_, rfl⟩
    by_cases h4 : bytes.getD 0 0 = 79
    · rw [h4, dispatch_O (by omega)]; exact ⟨_, rfl⟩
    by_cases h5 : bytes.getD 0 0 = 80
    · rw [h5, dispatch_P (by omega)]; exact ⟨_, rfl⟩
    by_cases h6 : bytes.getD 0 0 = 69
    · rw [h6, dispatch_E (by omega)]; exact ⟨_, rfl⟩
    by_cases h7 : bytes.getD 0 0 = 56
    · rw [h7, dispatch_PLU (by simp) (by omega)]; exact ⟨_, rfl⟩
    by_cases h8 : bytes.getD 0 0 = 53
    · rw [h8, dispatch_PLU (by simp) (by omega)]; exact ⟨_, rfl⟩
    by_cases h9 : bytes.getD 0 0 = 84
    · rw [h9, dispatch_T (by omega)]; exact ⟨_, rfl⟩
    by_cases h10 : bytes.getD 0 0 = 88
    · rw [h10, dispatch_X (by omega)]; exact ⟨_, rfl⟩
    by_cases h11 : bytes.getD 0 0 = 66
    · rw [h11, dispatch_B (by omega)]; exact ⟨_, rfl⟩
    by_cases h12 : bytes.getD 0 0 = 65
    · rw [h12, dispatch_A]; exact ⟨_, rfl⟩
    rw [dispatch_unknown (by
      simp only [List.mem_cons, List.not_mem_nil, or_false, not_or]
      exact ⟨h1, h2, h3, h4, h5, h6, h7, h8, h9, h10, h11, h12⟩)]
    exact ⟨_, rfl⟩
  · intro ht h10 h30
    rw [parse_message_head (by omega), ht]
    exact dispatch_D_short (by omega)
  · intro ht h10 h38
    rcases ht with h | h <;> rw [parse_message_head (by omega), h]
    · exact dispatch_T_reject (by omega)
    · exact dispatch_B_reject (by omega)

theorem claim_C2_witness :
    parse_message [84] 0 0 = Except.error () ∧
    (∃ r, parse_message (65 :: List.replicate 37 0) 1 2 = Except.ok r) ∧
    parse_message (68 :: List.replicate 27 0) 0 0 = Except.error () ∧
    parse_message (84 :: List.replicate 36 0) 0 0 = Except.ok none := by
  refine ⟨?_, ?_, ?_, ?_⟩
  · exact (claim_C2 [84] 0 0).1 (by decide)
  · exact (claim_C2 (65 :: List.replicate 37 0) 1 2).2.1 (by decide)
  · exact (claim_C2 (68 :: List.replicate 27 0) 0 0).2.2.1 (by decide) (by decide) (by decide)
  · exact (claim_C2 (84 :: List.replicate 36 0) 0 0).2.2.2 (by decide) (by decide) (by decide)

/-- Counterexample to claim C5 as stated: with exactly 2 bytes remaining
(region `[1, 0]`, a nonzero length prefix at offset 0), the loop condition
`2 + offset < bytes.len()` is false, so the prefix is NOT read and no
record is attempted: the attempt trace is empty and parse_body returns no
messages. -/
theorem claim_C5_counterexample :
    bytes_u16 [1, 0] 0 = 1 ∧
    segmentAttempts [1, 0] 0 0 = [] ∧
    parse_body [1, 0] 0 0 = Except.ok [] := by
  refine ⟨by decide, ?_, ?_⟩
  · rw [segmentAttempts, segmentAttempts_go]
    norm_num
  · rw [parse_body, parse_body_go]
    norm_num

theorem except_map_ok {ε α β : Type} {f : α → β} {x : Except ε α} {b : β}
    (h : x.map f = Except.ok b) : ∃ a, x = Except.ok a ∧ b = f a := by
  cases x with
  | error e => simp [Except.map] at h
  | ok a => exact ⟨a, rfl, by simpa [Except.map] using h.symm⟩

theorem parse_body_go_stop {bytes : List Nat} {pnum offset seq : Nat}
    (h : ¬ 2 + offset < bytes.length) :
    parse_body_go bytes pnum offset seq = Except.ok [] := by
  rw [parse_body_go, dif_neg h]

theorem parse_body_go_sentinel {bytes : List Nat} {pnum offset seq : Nat}
    (h : 2 + offset < bytes.length) (hz : bytes_u16 bytes offset = 0) :
    parse_body_go bytes pnum offset seq = Except.ok [] := by
  rw [parse_body_go, dif_pos h, dif_pos hz]

theorem parse_body_go_panic {bytes : List Nat} {pnum offset seq : Nat}
    (h : 2 + offset < bytes.length) (hz : bytes_u16 bytes offset ≠ 0)
    (hp : parse_message (bytes.drop (offset + 2)) pnum seq = Except.error ()) :
    parse_body_go bytes pnum offset seq = Except.error () := by
  rw [parse_body_go, dif_pos h, dif_neg hz, hp]

theorem parse_body_go_skip {bytes : List Nat} {pnum offset seq : Nat}
    (h : 2 + offset < bytes.length) (hz : bytes_u16 bytes offset ≠ 0)
    (hp : parse_message (bytes.drop (offset + 2)) pnum seq = Except.ok none) :
    parse_body_go bytes pnum offset seq =
      parse_body_go bytes pnum (offset + 2 + bytes_u16 bytes offset) (seq + 1) := by
  rw [parse_body_go, dif_pos h, dif_neg hz, hp]

theorem parse_body_go_keep {bytes : List Nat} {pnum offset seq : Nat}
    {m : IexDeepMessage}
    (h : 2 + offset < bytes.length) (hz : bytes_u16 bytes offset ≠ 0)
    (hp : parse_message (bytes.drop (offset + 2)) pnum seq = Except.ok (some m)) :
    parse_body_go bytes pnum offset seq =
      (parse_body_go bytes pnum (offset + 2 + bytes_u16 bytes offset) (seq + 1)).map
        (fun rest => m :: rest) := by
  rw [parse_body_go, dif_pos h, dif_neg hz, hp]

theorem segmentAttempts_go_stop {bytes : List Nat} {pnum offset seq : Nat}
    (h : ¬ 2 + offset < bytes.length) :
    segmentAttempts_go bytes pnum offset seq = [] := by
  rw [segmentAttempts_go, dif_neg h]

theorem segmentAttempts_go_sentinel {bytes : List Nat} {pnum offset seq : Nat}
    (h : 2 + offset < bytes.length) (hz : bytes_u16 bytes offset = 0) :
    segmentAttempts_go bytes pnum offset seq = [] := by
  rw [segmentAttempts_go, dif_pos h, dif_pos hz]

theorem segmentAttempts_go_panic {bytes : List Nat} {pnum offset seq : Nat}
    (h : 2 + offset < bytes.length) (hz : bytes_u16 bytes offset ≠ 0)
    (hp : parse_message (bytes.drop (offset + 2)) pnum seq = Except.error ()) :
    segmentAttempts_go bytes pnum offset seq =
      [⟨offset + 2, bytes_u16 bytes offset, seq⟩] := by
  rw [segmentAttempts_go, dif_pos h, dif_neg hz, hp]

theorem segmentAttempts_go_cons {bytes : List Nat} {pnum offset seq : Nat}
    {r : Option IexDeepMessage}
    (h : 2 + offset < bytes.length) (hz : bytes_u16 bytes offset ≠ 0)
    (hp : parse_message (bytes.drop (offset + 2)) pnum seq = Except.ok r) :
    segmentAttempts_go bytes pnum offset seq =
      ⟨offset + 2, bytes_u16 bytes offset, seq⟩ ::
        segmentAttempts_go bytes pnum (offset + 2 + bytes_u16 bytes offset) (seq + 1) := by
  rw [segmentAttempts_go, dif_pos h, dif_neg hz, hp]

/-- When segmentation terminates normally, its output is exactly the
per-attempt decode results of the attempt trace, each attempt decoding
`bytes.drop a.offset` (the whole remaining region). -/
theorem parse_body_go_eq_filterMap {bytes : List Nat} {pnum : Nat} :
    ∀ n offset seq msgs, bytes.length - offset ≤ n →
      parse_body_go bytes pnum offset seq = Except.ok msgs →
      msgs = (segmentAttempts_go bytes pnum offset seq).filterMap (decodeOf bytes pnum) := by
  intro n
  induction n with
  | zero =>
      intro offset seq msgs hn hok
      have hc : ¬ 2 + offset < bytes.length := by omega
      rw [parse_body_go_stop hc] at hok
      cases hok
      rw [segmentAttempts_go_stop hc]
      rfl
  | succ n ih =>
      intro offset seq msgs hn hok
      by_cases hc : 2 + offset < bytes.length
      · by_cases hz : bytes_u16 bytes offset = 0
        · rw [parse_body_go_sentinel hc hz] at hok
          cases hok
          rw [segmentAttempts_go_sentinel hc hz]
          rfl
        · cases hp : parse_message (bytes.drop (offset + 2)) pnum seq with
          | error e =>
              cases e
              rw [parse_body_go_panic hc hz hp] at hok
              cases hok
          | ok r =>
              rw [segmentAttempts_go_cons hc hz hp, List.filterMap_cons]
              have hdec : decodeOf bytes pnum ⟨offset + 2, bytes_u16 bytes offset, seq⟩ =
                  (match r with | some m => some m | none => none) := by
                simp only [decodeOf, hp]
                cases r <;> rfl
              cases r with
              | none =>
                  rw [parse_body_go_skip hc hz hp] at hok
                  rw [hdec]
                  exact ih _ _ _ (by omega) hok
              | some m =>
                  rw [parse_body_go_keep hc hz hp] at hok
                  obtain ⟨rest, hrest, hmsgs⟩ := except_map_ok hok
                  rw [hdec, hmsgs]
                  exact congrArg _ (ih _ _ _ (by omega) hrest)
      · rw [parse_body_go_stop hc] at hok
        cases hok
        rw [segmentAttempts_go_stop hc]
        rfl

/-- Sequence numbers in the attempt trace increase by exactly 1 from the
starting value. -/
theorem segmentAttempts_go_seq {bytes : List Nat} {pnum : Nat} :
    ∀ n offset seq, bytes.length - offset ≤ n →
      ∀ i, i < (segmentAttempts_go bytes pnum offset seq).length →
        ((segmentAttempts_go bytes pnum offset seq).getD i dummyAttempt).seq = seq + i := by
  intro n
  induction n with
  | zero =>
      intro offset seq hn i h
      rw [segmentAttempts_go_stop (by omega)] at h
      exact absurd h (by simp)
  | succ n ih =>
      intro offset seq hn i h
      by_cases hc : 2 + offset < bytes.length
      · by_cases hz : bytes_u16 bytes offset = 0
        · rw [segmentAttempts_go_sentinel hc hz] at h
          exact absurd h (by simp)
        · cases hp : parse_message (bytes.drop (offset + 2)) pnum seq with
          | error e =>
              cases e
              rw [segmentAttempts_go_panic hc hz hp] at h ⊢
              have hi : i = 0 := by simpa using h
              subst hi
              rfl
          | ok r =>
              rw [segmentAttempts_go_cons hc hz hp] at h ⊢
              cases i with
              | zero => rfl
              | succ i =>
                  rw [List.getD_cons_succ]
                  rw [ih (offset + 2 + bytes_u16 bytes offset) (seq + 1) (by omega) i
                    (by simpa using h)]
                  omega
      · rw [segmentAttempts_go_stop hc] at h
        exact absurd h (by simp)

/-- The cursor advances by the declared length plus the 2-byte prefix
between consecutive attempts. -/
theorem segmentAttempts_go_offset {bytes : List Nat} {pnum : Nat} :
    ∀ n offset seq, bytes.length - offset ≤ n →
      ∀ i, i + 1 < (segmentAttempts_go bytes pnum offset seq).length →
        ((segmentAttempts_go bytes pnum offset seq).getD (i + 1) dummyAttempt).offset =
          ((segmentAttempts_go bytes pnum offset seq).getD i dummyAttempt).offset +
            ((segmentAttempts_go bytes pnum offset seq).getD i dummyAttempt).len + 2 := by
  intro n
  induction n with
  | zero =>
      intro offset seq hn i h
      rw [segmentAttempts_go_stop (by omega)] at h
      exact absurd h (by simp)
  | succ n ih =>
      intro offset seq hn i h
      by_cases hc : 2 + offset < bytes.length
      · by_cases hz : bytes_u16 bytes offset = 0
        · rw [segmentAttempts_go_sentinel hc hz] at h
          exact absurd h (by simp)
        · cases hp : parse_message (bytes.drop (offset + 2)) pnum seq with
          | error e =>
              cases e
              rw [segmentAttempts_go_panic hc hz hp] at h
              simp at h
          | ok r =>
              rw [segmentAttempts_go_cons hc hz hp] at h ⊢
              cases i with
              | zero =>
                  rw [List.getD_cons_succ, List.getD_cons_zero]
                  -- the second attempt is the head of the next call
                  have hlen : 0 < (segmentAttempts_go bytes pnum
                      (offset + 2 + bytes_u16 bytes offset) (seq + 1)).length := by
                    simpa using h
                  -- the head of any nonempty trace from state o has offset o + 2
                  by_cases hc2 : 2 + (offset + 2 + bytes_u16 bytes offset) < bytes.length
                  · by_cases hz2 : bytes_u16 bytes (offset + 2 + bytes_u16 bytes offset) = 0
                    · rw [segmentAttempts_go_sentinel hc2 hz2] at hlen
                      simp at hlen
                    · cases hp2 : parse_message
                        (bytes.drop (offset + 2 + bytes_u16 bytes offset + 2)) pnum (seq + 1) with
                      | error e =>
                          cases e
                          rw [segmentAttempts_go_panic hc2 hz2 hp2, List.getD_cons_zero]
                      | ok r2 =>
                          rw [segmentAttempts_go_cons hc2 hz2 hp2, List.getD_cons_zero]
                  · rw [segmentAttempts_go_stop hc2] at hlen
                    simp at hlen
              | succ i =>
                  simp only [List.getD_cons_succ]
                  exact ih (offset + 2 + bytes_u16 bytes offset) (seq + 1) (by omega) i
                    (by simpa using h)
      · rw [segmentAttempts_go_stop hc] at h
        exact absurd h (by simp)

/-- An attempt whose parse returns (rather than panics) is followed by a
further attempt exactly when at least 3 bytes remain after the record and
the next prefix is not the 0 sentinel; in particular a mere decode failure
does not end the trace. -/
theorem segmentAttempts_go_succ {bytes : List Nat} {pnum : Nat} :
    ∀ n offset seq, bytes.length - offset ≤ n →
      ∀ i, i < (segmentAttempts_go bytes pnum offset seq).length →
        parse_message
          (bytes.drop ((segmentAttempts_go bytes pnum offset seq).getD i dummyAttempt).offset)
          pnum ((segmentAttempts_go bytes pnum offset seq).getD i dummyAttempt).seq ≠
            Except.error () →
        2 + (((segmentAttempts_go bytes pnum offset seq).getD i dummyAttempt).offset +
          ((segmentAttempts_go bytes pnum offset seq).getD i dummyAttempt).len) < bytes.length →
        bytes_u16 bytes
          (((segmentAttempts_go bytes pnum offset seq).getD i dummyAttempt).offset +
            ((segmentAttempts_go bytes pnum offset seq).getD i dummyAttempt).len) ≠ 0 →
        i + 1 < (segmentAttempts_go bytes pnum offset seq).length := by
  intro n
  induction n with
  | zero =>
      intro offset seq hn i h
      rw [segmentAttempts_go_stop (by omega)] at h
      exact absurd h (by simp)
  | succ n ih =>
      intro offset seq hn i h hne hroom hnz
      by_cases hc : 2 + offset < bytes.length
      · by_cases hz : bytes_u16 bytes offset = 0
        · rw [segmentAttempts_go_sentinel hc hz] at h
          exact absurd h (by simp)
        · cases hp : parse_message (bytes.drop (offset + 2)) pnum seq with
          | error e =>
              cases e
              rw [segmentAttempts_go_panic hc hz hp] at h hne
              have hi : i = 0 := by simpa using h
              subst hi
              rw [List.getD_cons_zero] at hne
              exact absurd hp hne
          | ok r =>
              rw [segmentAttempts_go_cons hc hz hp] at h hne hroom hnz ⊢
              cases i with
              | zero =>
                  simp only [List.getD_cons_zero] at hroom hnz
                  simp only [List.length_cons]
                  have hnext : segmentAttempts_go bytes pnum
                      (offset + 2 + bytes_u16 bytes offset) (seq + 1) ≠ [] := by
                    have hc2 : 2 + (offset + 2 + bytes_u16 bytes offset) < bytes.length := by
                      simpa using hroom
                    have hz2 : bytes_u16 bytes (offset + 2 + bytes_u16 bytes offset) ≠ 0 := by
                      simpa using hnz
                    cases hp2 : parse_message
                        (bytes.drop (offset + 2 + bytes_u16 bytes offset + 2)) pnum (seq + 1) with
                    | error e =>
                        cases e
                        rw [segmentAttempts_go_panic hc2 hz2 hp2]
                        simp
                    | ok r2 =>
                        rw [segmentAttempts_go_cons hc2 hz2 hp2]
                        simp
                  have := List.length_pos.mpr hnext
                  omega
              | succ i =>
                  simp only [List.getD_cons_succ] at hne hroom hnz
                  simp only [List.length_cons] at h ⊢
                  have := ih (offset + 2 + bytes_u16 bytes offset) (seq + 1) (by omega) i
                    (by omega) hne hroom hnz
                  omega
      · rw [segmentAttempts_go_stop hc] at h
        exact absurd h (by simp)

/-- The segmenter cursor never moves backwards. -/
theorem SegReaches.le {bytes : List Nat} {pnum : Nat} :
    ∀ {o s oe se : Nat}, SegReaches bytes pnum o s oe se → o ≤ oe
  | _, _, _, _, .refl o s => Nat.le_refl o
  | _, _, _, _, @SegReaches.step _ _ offset seq oe se r h1 h2 h3 hrest =>
      Nat.le_trans (by omega) hrest.le

/-- A run that reaches the 0-length sentinel terminates normally. -/
theorem parse_body_go_ok_of_reaches {bytes : List Nat} {pnum : Nat} :
    ∀ {o s k sq : Nat}, SegReaches bytes pnum o s k sq →
      2 + k < bytes.length → bytes_u16 bytes k = 0 →
      ∃ msgs, parse_body_go bytes pnum o s = Except.ok msgs
  | _, _, _, _, .refl o s, hin, hz => ⟨[], parse_body_go_sentinel hin hz⟩
  | _, _, _, _, @SegReaches.step _ _ offset seq offEnd seqEnd r hin2 hL hok hrest,
      hin, hz => by
    obtain ⟨msgs, hm⟩ := parse_body_go_ok_of_reaches hrest hin hz
    cases r with
    | none =>
        rw [parse_body_go_skip hin2 hL hok]
        exact ⟨msgs, hm⟩
    | some m =>
        rw [parse_body_go_keep hin2 hL hok, hm]
        exact ⟨m :: msgs, rfl⟩

/-- Every attempted record on a path to the sentinel at offset k lies
entirely before k. -/
theorem segmentAttempts_go_bounded {bytes : List Nat} {pnum : Nat} :
    ∀ {o s k sq : Nat}, SegReaches bytes pnum o s k sq →
      2 + k < bytes.length → bytes_u16 bytes k = 0 →
      ∀ a ∈ segmentAttempts_go bytes pnum o s, a.offset + a.len ≤ k
  | _, _, _, _, .refl o s, hin, hz => by
      rw [segmentAttempts_go_sentinel hin hz]
      simp
  | _, _, _, _, @SegReaches.step _ _ offset seq offEnd seqEnd r hin2 hL hok hrest,
      hin, hz => by
    rw [segmentAttempts_go_cons hin2 hL hok]
    intro a ha
    rcases List.mem_cons.mp ha with rfl | ha
    · have := hrest.le
      simp only
      omega
    · exact segmentAttempts_go_bounded hrest hin hz a ha

/-- Claim C1 amended: the Segmenter hands the Message Decoder
`bytes[offset..]`, the whole remaining region from the cursor (not the
length-L sub-slice), so a record's decode result may depend on bytes past
`offset + L`.  When segmentation terminates normally its output is exactly
the decode results of the attempt trace, where each attempt decodes
`bytes.drop a.offset` (see `decodeOf`). -/
theorem claim_C1 (bytes : List Nat) (pnum start : Nat) (msgs : List IexDeepMessage)
    (h : parse_body bytes pnum start = Except.ok msgs) :
    msgs = (segmentAttempts bytes pnum start).filterMap (decodeOf bytes pnum) :=
  parse_body_go_eq_filterMap bytes.length 0 start msgs (by omega) h

theorem c1_r1_eval : parse_body c1_r1 0 0 = Except.ok [c1_msg] := by
  have hp : parse_message (c1_r1.drop (0 + 2)) 0 0 = Except.ok (some c1_msg) := by decide
  rw [parse_body, parse_body_go_keep (by decide) (by decide) hp]
  rw [show bytes_u16 c1_r1 0 = 2 from by decide]
  norm_num
  rw [parse_body_go_sentinel (by decide) (by decide)]
  rfl

theorem c1_r2_eval : parse_body c1_r2 0 0 = Except.ok [] := by
  have hp : parse_message (c1_r2.drop (0 + 2)) 0 0 = Except.ok none := by decide
  rw [parse_body, parse_body_go_skip (by decide) (by decide) hp]
  rw [show bytes_u16 c1_r2 0 = 2 from by decide]
  norm_num
  rw [parse_body_go_sentinel (by decide) (by decide)]

/-- Counterexample to claim C1 as stated: two regions that agree on the
whole record boundary `region[0 .. offset+L]` (prefix L = 2 plus the
2-byte record) but differ only past `offset + L` produce different outputs
- one decodes a Trade Report by reading 38 bytes across the record
boundary, the other rejects it - so the decoded result does not depend
only on bytes within the record boundary. -/
theorem claim_C1_counterexample :
    bytes_u16 c1_r1 0 = 2 ∧ bytes_u16 c1_r2 0 = 2 ∧
    List.take (2 + 2) c1_r1 = List.take (2 + 2) c1_r2 ∧
    parse_body c1_r1 0 0 = Except.ok [c1_msg] ∧
    parse_body c1_r2 0 0 = Except.ok [] :=
  ⟨by decide, by decide, by decide, c1_r1_eval, c1_r2_eval⟩

theorem claim_C1_witness :
    [c1_msg] = (segmentAttempts c1_r1 0 0).filterMap (decodeOf c1_r1 0) :=
  claim_C1 c1_r1 0 0 [c1_msg] c1_r1_eval

/-- Claim C3: over the segmenter's attempt trace, sequence numbers
assigned to consecutive attempted records increase by exactly 1 from the
starting sequence number; the cursor advances by the declared length L
(plus the 2-byte prefix) after each record whether or not it decoded
successfully; and an attempt whose parse returns (success or decode
failure alike, rather than panicking) is followed by a further attempt
whenever bytes remain and the next prefix is not the 0 sentinel, so a
decode failure does not halt segmentation. -/
theorem claim_C3 (bytes : List Nat) (pnum start : Nat) :
    (∀ i, i < (segmentAttempts bytes pnum start).length →
      ((segmentAttempts bytes pnum start).getD i dummyAttempt).seq = start + i) ∧
    (∀ i, i + 1 < (segmentAttempts bytes pnum start).length →
      ((segmentAttempts bytes pnum start).getD (i + 1) dummyAttempt).offset =
        ((segmentAttempts bytes pnum start).getD i dummyAttempt).offset +
          ((segmentAttempts bytes pnum start).getD i dummyAttempt).len + 2) ∧
    (∀ i, i < (segmentAttempts bytes pnum start).length →
      parse_message
        (bytes.drop (((segmentAttempts bytes pnum start).getD i dummyAttempt).offset))
        pnum (((segmentAttempts bytes pnum start).getD i dummyAttempt).seq) ≠
          Except.error () →
      2 + (((segmentAttempts bytes pnum start).getD i dummyAttempt).offset +
        ((segmentAttempts bytes pnum start).getD i dummyAttempt).len) < bytes.length →
      bytes_u16 bytes
        (((segmentAttempts bytes pnum start).getD i dummyAttempt).offset +
          ((segmentAttempts bytes pnum start).getD i dummyAttempt).len) ≠ 0 →
      i + 1 < (segmentAttempts bytes pnum start).length) :=
  ⟨segmentAttempts_go_seq bytes.length 0 start (by omega),
   segmentAttempts_go_offset bytes.length 0 start (by omega),
   segmentAttempts_go_succ bytes.length 0 start (by omega)⟩

theorem c3bytes_eval : segmentAttempts c3bytes 0 5 = [⟨2, 3, 5⟩, ⟨7, 3, 6⟩] := by
  have hp1 : parse_message (c3bytes.drop (0 + 2)) 0 5 = Except.ok none := by decide
  rw [segmentAttempts, segmentAttempts_go_cons (by decide) (by decide) hp1]
  rw [show bytes_u16 c3bytes 0 = 3 from by decide]
  norm_num
  have hp2 : parse_message (c3bytes.drop (5 + 2)) 0 (5 + 1) = Except.ok none := by decide
  rw [segmentAttempts_go_cons (by decide) (by decide) hp2]
  rw [show bytes_u16 c3bytes 5 = 3 from by decide]
  norm_num
  rw [segmentAttempts_go_sentinel (by decide) (by decide)]

theorem claim_C3_witness :
    ((segmentAttempts c3bytes 0 5).getD 1 dummyAttempt).seq = 5 + 1 ∧
    ((segmentAttempts c3bytes 0 5).getD (0 + 1) dummyAttempt).offset =
      ((segmentAttempts c3bytes 0 5).getD 0 dummyAttempt).offset +
        ((segmentAttempts c3bytes 0 5).getD 0 dummyAttempt).len + 2 ∧
    0 + 1 < (segmentAttempts c3bytes 0 5).length := by
  refine ⟨(claim_C3 c3bytes 0 5).1 1 ?_, (claim_C3 c3bytes 0 5).2.1 0 ?_,
    (claim_C3 c3bytes 0 5).2.2 0 ?_ ?_ ?_ ?_⟩ <;>
    rw [c3bytes_eval] <;> decide

/-- Claim C4: if the segmenter reaches cursor position k where at least 3
bytes remain and the 16-bit prefix at k is 0, segmentation stops there as
a normal (non-failure) termination: parse_body returns `Except.ok` with
exactly the messages decoded from the attempted records, and every
attempted record lies entirely before k. -/
theorem claim_C4 (bytes : List Nat) (pnum start k seqk : Nat)
    (hreach : SegReaches bytes pnum 0 start k seqk)
    (hin : 2 + k < bytes.length) (hz : bytes_u16 bytes k = 0) :
    (∃ msgs, parse_body bytes pnum start = Except.ok msgs ∧
      msgs = (segmentAttempts bytes pnum start).filterMap (decodeOf bytes pnum)) ∧
    ∀ a ∈ segmentAttempts bytes pnum start, a.offset + a.len ≤ k := by
  obtain ⟨msgs, hm⟩ := parse_body_go_ok_of_reaches hreach hin hz
  exact ⟨⟨msgs, hm, parse_body_go_eq_filterMap bytes.length 0 start msgs (by omega) hm⟩,
    segmentAttempts_go_bounded hreach hin hz⟩

theorem claim_C4_witness :
    (∃ msgs, parse_body c4bytes 0 7 = Except.ok msgs ∧
      msgs = (segmentAttempts c4bytes 0 7).filterMap (decodeOf c4bytes 0)) ∧
    ∀ a ∈ segmentAttempts c4bytes 0 7, a.offset + a.len ≤ 5 := by
  have hreach : SegReaches c4bytes 0 0 7 5 8 :=
    SegReaches.step (by decide) (by decide)
      (show parse_message (c4bytes.drop (0 + 2)) 0 7 = Except.ok none from by decide)
      (SegReaches.refl 5 8)
  exact claim_C4 c4bytes 0 7 5 8 hreach (by decide) (by decide)

/-- Claim C5 amended: the Segmenter continues iterating only while
STRICTLY more than 2 bytes remain from the cursor to the end of the region
(`2 + offset < bytes.len()`): a record is attempted at the cursor exactly
when at least 3 bytes remain and the prefix is not the 0 sentinel; with
exactly 2 remaining bytes the prefix is not read. -/
theorem claim_C5 (bytes : List Nat) (pnum offset seq : Nat) :
    segmentAttempts_go bytes pnum offset seq ≠ [] ↔
      2 + offset < bytes.length ∧ bytes_u16 bytes offset ≠ 0 := by
  constructor
  · intro hne
    by_cases hc : 2 + offset < bytes.length
    · by_cases hz : bytes_u16 bytes offset = 0
      · exact absurd (segmentAttempts_go_sentinel hc hz) hne
      · exact ⟨hc, hz⟩
    · exact absurd (segmentAttempts_go_stop hc) hne
  · rintro ⟨hc, hz⟩
    cases hp : parse_message (bytes.drop (offset + 2)) pnum seq with
    | error e =>
        cases e
        rw [segmentAttempts_go_panic hc hz hp]
        simp
    | ok r =>
        rw [segmentAttempts_go_cons hc hz hp]
        simp

theorem claim_C5_witness : segmentAttempts_go [1, 0, 99] 0 0 0 ≠ [] :=
  (claim_C5 [1, 0, 99] 0 0 0).mpr ⟨by decide, by decide⟩

theorem getD_take_lt {l : List Nat} {n i : Nat} (h : i < n) :
    (l.take n).getD i 0 = l.getD i 0 := by
  simp [List.getD_eq_getElem?_getD, List.getElem?_take, h]

theorem leBytes_two (v : Nat) : leBytes 2 v = [v % 256, v / 256 % 256] := rfl

theorem leBytes_four (v : Nat) :
    leBytes 4 v = [v % 256, v / 256 % 256, v / 65536 % 256, v / 16777216 % 256] := by
  simp only [leBytes, Nat.div_div_eq_div_mul]

theorem leBytes_eight (v : Nat) :
    leBytes 8 v = [v % 256, v / 256 % 256, v / 65536 % 256, v / 16777216 % 256,
      v / 4294967296 % 256, v / 1099511627776 % 256, v / 281474976710656 % 256,
      v / 72057594037927936 % 256] := by
  simp only [leBytes, Nat.div_div_eq_div_mul]

theorem encode_parse_header_aux :
    ∀ bytes : List Nat, 40 ≤ bytes.length → (∀ b ∈ bytes, b < 256) →
      ∀ hdr, parse_header bytes = some hdr → encode_header hdr = bytes.take 40 := by
  intro bytes hlen hb hdr hph
  rcases bytes with _ | ⟨b0, bytes⟩
  · simp at hlen
  rcases bytes with _ | ⟨b1, bytes⟩
  · simp at hlen
  rcases bytes with _ | ⟨b2, bytes⟩
  · simp at hlen
  rcases bytes with _ | ⟨b3, bytes⟩
  · simp at hlen
  rcases bytes with _ | ⟨b4, bytes⟩
  · simp at hlen
  rcases bytes with _ | ⟨b5, bytes⟩
  · simp at hlen
  rcases bytes with _ | ⟨b6, bytes⟩
  · simp at hlen
  rcases bytes with _ | ⟨b7, bytes⟩
  · simp at hlen
  rcases bytes with _ | ⟨b8, bytes⟩
  · simp at hlen
  rcases bytes with _ | ⟨b9, bytes⟩
  · simp at hlen
  rcases bytes with _ | ⟨b10, bytes⟩
  · simp at hlen
  rcases bytes with _ | ⟨b11, bytes⟩
  · simp at hlen
  rcases bytes with _ | ⟨b12, bytes⟩
  · simp at hlen
  rcases bytes with _ | ⟨b13, bytes⟩
  · simp at hlen
  rcases bytes with _ | ⟨b14, bytes⟩
  · simp at hlen
  rcases bytes with _ | ⟨b15, bytes⟩
  · simp at hlen
  rcases bytes with _ | ⟨b16, bytes⟩
  · simp at hlen
  rcases bytes with _ | ⟨b17, bytes⟩
  · simp at hlen
  rcases bytes with _ | ⟨b18, bytes⟩
  · simp at hlen
  rcases bytes with _ | ⟨b19, bytes⟩
  · simp at hlen
  rcases bytes with _ | ⟨b20, bytes⟩
  · simp at hlen
  rcases bytes with _ | ⟨b21, bytes⟩
  · simp at hlen
  rcases bytes with _ | ⟨b22, bytes⟩
  · simp at hlen
  rcases bytes with _ | ⟨b23, bytes⟩
  · simp at hlen
  rcases bytes with _ | ⟨b24, bytes⟩
  · simp at hlen
  rcases bytes with _ | ⟨b25, bytes⟩
  · simp at hlen
  rcases bytes with _ | ⟨b26, bytes⟩
  · simp at hlen
  rcases bytes with _ | ⟨b27, bytes⟩
  · simp at hlen
  rcases bytes with _ | ⟨b28, bytes⟩
  · simp at hlen
  rcases bytes with _ | ⟨b29, bytes⟩
  · simp at hlen
  rcases bytes with _ | ⟨b30, bytes⟩
  · simp at hlen
  rcases bytes with _ | ⟨b31, bytes⟩
  · simp at hlen
  rcases bytes with _ | ⟨b32, bytes⟩
  · simp at hlen
  rcases bytes with _ | ⟨b33, bytes⟩
  · simp at hlen
  rcases bytes with _ | ⟨b34, bytes⟩
  · simp at hlen
  rcases bytes with _ | ⟨b35, bytes⟩
  · simp at hlen
  rcases bytes with _ | ⟨b36, bytes⟩
  · simp at hlen
  rcases bytes with _ | ⟨b37, bytes⟩
  · simp at hlen
  rcases bytes with _ | ⟨b38, bytes⟩
  · simp at hlen
  rcases bytes with _ | ⟨b39, bytes⟩
  · simp at hlen
  simp only [List.forall_mem_cons] at hb
  obtain ⟨h0, h1, h2, h3, h4, h5, h6, h7, h8, h9, h10, h11, h12, h13, h14, h15, h16, h17, h18, h19, h20, h21, h22, h23, h24, h25, h26, h27, h28, h29, h30, h31, h32, h33, h34, h35, h36, h37, h38, h39, -⟩ := hb
  simp only [parse_header] at hph
  rw [if_neg (by simp only [List.length_cons]; omega)] at hph
  injection hph with hph
  subst hph
  rw [show (b0 :: b1 :: b2 :: b3 :: b4 :: b5 :: b6 :: b7 :: b8 :: b9 :: b10 :: b11 :: b12 :: b13 :: b14 :: b15 :: b16 :: b17 :: b18 :: b19 :: b20 :: b21 :: b22 :: b23 :: b24 :: b25 :: b26 :: b27 :: b28 :: b29 :: b30 :: b31 :: b32 :: b33 :: b34 :: b35 :: b36 :: b37 :: b38 :: b39 :: bytes).take 40 = [b0, b1, b2, b3, b4, b5, b6, b7, b8, b9, b10, b11, b12, b13, b14, b15, b16, b17, b18, b19, b20, b21, b22, b23, b24, b25, b26, b27, b28, b29, b30, b31, b32, b33, b34, b35, b36, b37, b38, b39] from by simp]
  simp only [encode_header, bytes_u16, bytes_u32, bytes_u64,
    List.getD_cons_succ, List.getD_cons_zero,
    leBytes_two, leBytes_four, leBytes_eight,
    List.cons_append, List.nil_append, List.cons.injEq, and_true]
  repeat' apply And.intro
  all_goals first | omega | trivial

/-- Claim C8: the Transport Header Decoder fails exactly when the input is
shorter than 40 bytes; on longer input it reads nothing beyond byte 40
(parsing the truncation to 40 bytes gives the same header); and re-encoding
the ten decoded fields little-endian at offsets 0,1,2,4,8,12,14,16,24,32
reproduces the original first 40 bytes byte-for-byte. -/
theorem claim_C8 (bytes : List Nat) :
    (parse_header bytes = none ↔ bytes.length < 40) ∧
    (40 ≤ bytes.length → parse_header bytes = parse_header (bytes.take 40)) ∧
    (40 ≤ bytes.length → (∀ b ∈ bytes, b < 256) →
      ∀ hdr, parse_header bytes = some hdr → encode_header hdr = bytes.take 40) := by
  refine ⟨?_, ?_, ?_⟩
  · by_cases h : bytes.length < 40 <;> simp [parse_header, h]
  · intro hlen
    have hlt : ¬ bytes.length < 40 := by omega
    have hlt2 : ¬ (bytes.take 40).length < 40 := by
      simp only [List.length_take]
      omega
    simp only [parse_header]
    rw [if_neg hlt, if_neg hlt2]
    simp (disch := omega) only [bytes_u16, bytes_u32, bytes_u64, getD_take_lt]
  · intro hlen hb hdr hph
    exact encode_parse_header_aux bytes hlen hb hdr hph

theorem claim_C8_witness :
    parse_header c8bytes = parse_header (c8bytes.take 40) ∧
    encode_header c8hdr = c8bytes.take 40 := by
  constructor
  · exact (claim_C8 c8bytes).2.1 (by decide)
  · exact (claim_C8 c8bytes).2.2 (by decide) (by decide) c8hdr (by decide)

theorem c9_body_eval : parse_body (c9_packet.drop 40) 0 100 = Except.ok [c9_msg] := by
  have hp : parse_message ((c9_packet.drop 40).drop (0 + 2)) 0 100 =
      Except.ok (some c9_msg) := by decide
  rw [parse_body, parse_body_go_keep (by decide) (by decide) hp]
  rw [show bytes_u16 (c9_packet.drop 40) 0 = 30 from by decide]
  norm_num
  rw [parse_body_go_stop (by decide)]
  rfl

theorem c9_packet_eval : process_packet c9_packet 0 = Except.ok [c9_msg] := by
  have hhdr : parse_header c9_packet = some
    { version := 1, reserved := 0, message_protocol_id := 32772, channel_id := 0
      session_id := 0, payload_length := 32, message_count := 1, stream_offset := 0
      first_message_sequence_number := 100, send_time := 0 } := by decide
  simp only [process_packet, hhdr]
  rw [if_pos (by simp)]
  exact c9_body_eval

/-- Claim C9: a DecodedMessage projects to a Tick if and only if its kind
is Trade Report or Price Level Update, and the symbol (the grouping key,
not a Tick field) is extracted for exactly the same kinds; the produced
Tick carries the message type, subtype, timestamp, size, price, packet
index and sequence number, with price multiplier always 10000; and the
synthetic packet with a valid header (version 1, protocol id 0x8004,
first sequence 100) followed by one Price Level Update record (type 56,
subtype 1, size 500, price 123450000) yields exactly one Tick with
sequence number 100, size 500, price 123450000, multiplier 10000, grouped
under the record's symbol. -/
theorem claim_C9 :
    (∀ m : IexDeepMessage, m.to_serialized_tick.isSome = true ↔ projects_to_tick m.body) ∧
    (∀ m : IexDeepMessage, m.symbol.isSome = true ↔ projects_to_tick m.body) ∧
    (∀ (m : IexDeepMessage) (t : Tick), m.to_serialized_tick = some t →
      t.price_multiplier = 10000 ∧ t.message_type = m.message_type ∧
      t.message_subtype = m.message_subtype ∧ t.timestamp = m.timestamp ∧
      t.packet_number = m.packet_number ∧
      t.message_sequence_number = m.message_sequence_number) ∧
    (∀ (m : IexDeepMessage) (tr : TradeReportMessage),
      m.body = IexDeepMessageImpl.TradeReport tr →
      m.to_serialized_tick = some
        { message_type := m.message_type, message_subtype := m.message_subtype
          timestamp := m.timestamp, size := tr.size, price := tr.price
          price_multiplier := 10000, packet_number := m.packet_number
          message_sequence_number := m.message_sequence_number } ∧
      m.symbol = some tr.symbol) ∧
    (∀ (m : IexDeepMessage) (plu : PriceLevelUpdateMessage),
      m.body = IexDeepMessageImpl.PriceLevelUpdate plu →
      m.to_serialized_tick = some
        { message_type := m.message_type, message_subtype := m.message_subtype
          timestamp := m.timestamp, size := plu.size, price := plu.price
          price_multiplier := 10000, packet_number := m.packet_number
          message_sequence_number := m.message_sequence_number } ∧
      m.symbol = some plu.symbol) ∧
    process_packet_ticks c9_packet 0 =
      Except.ok [([90, 90, 90, 90, 90, 90, 90, 90], c9_tick)] := by
  refine ⟨?_, ?_, ?_, ?_, ?_, ?_⟩
  · intro m
    cases hb : m.body <;>
      simp [IexDeepMessage.to_serialized_tick, projects_to_tick, hb]
  · intro m
    cases hb : m.body <;>
      simp [IexDeepMessage.symbol, projects_to_tick, hb]
  · intro m t ht
    cases hb : m.body <;>
      simp only [IexDeepMessage.to_serialized_tick, hb] at ht <;>
      (try cases ht) <;>
      exact ⟨rfl, rfl, rfl, rfl, rfl, rfl⟩
  · intro m tr hb
    simp [IexDeepMessage.to_serialized_tick, IexDeepMessage.symbol, hb,
      get_price_multiplier_for_timestamp]
  · intro m plu hb
    simp [IexDeepMessage.to_serialized_tick, IexDeepMessage.symbol, hb,
      get_price_multiplier_for_timestamp]
  · rw [process_packet_ticks, c9_packet_eval]
    decide

theorem claim_C9_witness :
    c9_msg.to_serialized_tick.isSome = true ∧
    (c9_msg.to_serialized_tick = some c9_tick →
      c9_tick.price_multiplier = 10000 ∧ c9_tick.message_type = c9_msg.message_type ∧
      c9_tick.message_subtype = c9_msg.message_subtype ∧
      c9_tick.timestamp = c9_msg.timestamp ∧
      c9_tick.packet_number = c9_msg.packet_number ∧
      c9_tick.message_sequence_number = c9_msg.message_sequence_number) ∧
    c9_tick.price_multiplier = 10000 := by
  refine ⟨(claim_C9.1 c9_msg).mpr trivial, claim_C9.2.2.1 c9_msg c9_tick, ?_⟩
  exact (claim_C9.2.2.1 c9_msg c9_tick (by decide)).1

theorem pathFileStem_of_ext {p e : List Char} (h : pathExtension p = some e) :
    ∃ stem, pathFileStem p = some stem := by
  unfold pathExtension at h
  unfold pathFileStem
  by_cases hcond : ((fileName p).reverse.takeWhile (fun c => c != '.')).length + 2 ≤
      (fileName p).length
  · have hne : (fileName p).isEmpty = false := by
      have : (fileName p).length ≠ 0 := by omega
      simpa [List.isEmpty_iff_length_eq_zero] using this
    simp only [hne, Bool.false_eq_true, if_false, if_pos hcond]
    exact ⟨_, rfl⟩
  · rw [if_neg hcond] at h
    cases h

theorem yyyymmdd_no_other_err (stem : List Char) :
    yyyymmdd_prefix_from_stem stem ≠ Except.error TradeDateFromFileErr.NoStem ∧
    yyyymmdd_prefix_from_stem stem ≠ Except.error TradeDateFromFileErr.InvalidUnicode := by
  unfold yyyymmdd_prefix_from_stem
  by_cases h1 : stem.length = 8 ∧ stem.all Char.isDigit
  · rw [if_pos h1]
    by_cases h2 : 1 ≤ digitsToNat ((stem.drop 4).take 2) ∧
        digitsToNat ((stem.drop 4).take 2) ≤ 12 ∧ 1 ≤ digitsToNat (stem.drop 6) ∧
        digitsToNat (stem.drop 6) ≤
          daysInMonth (digitsToNat (stem.take 4)) (digitsToNat ((stem.drop 4).take 2))
    · rw [if_pos h2]
      exact ⟨by simp, by simp⟩
    · rw [if_neg h2]
      exact ⟨by simp, by simp⟩
  · rw [if_neg h1]
    exact ⟨by simp, by simp⟩

/-- Counterexample to claim C10 as stated: trade_date_from_deep_pcap does
not always return a date or an error value - on a recognized extension
with a stem shorter than 8 bytes (such as x.pcap) the byte slice
`&stem[0..8]` panics. -/
theorem claim_C10_counterexample :
    trade_date_from_deep_pcap ("x.pcap".toList) = Except.error () := by decide

/-- Claim C10 amended: trade_date_from_h5 always returns either a valid
calendar date or a WrongFileExtension / InvalidDate error (never NoStem or
InvalidUnicode): 20180229.h5 is rejected with invalid-date (2018 is not a
leap year), 20180228.h5 yields 2018-02-28, and asdf and asdf.txt are
rejected with wrong-extension.  trade_date_from_deep_pcap behaves the same
way except that it panics exactly when the extension is recognized (pcap
or gz) and the stem is shorter than 8 bytes; on a stem of at least 8 bytes
it parses the 8-character date prefix. -/
theorem claim_C10 :
    (∀ p : List Char,
      trade_date_from_h5 p ≠ Except.error TradeDateFromFileErr.NoStem ∧
      trade_date_from_h5 p ≠ Except.error TradeDateFromFileErr.InvalidUnicode) ∧
    trade_date_from_h5 ("20180229.h5".toList) =
      Except.error TradeDateFromFileErr.InvalidDate ∧
    trade_date_from_h5 ("20180228.h5".toList) = Except.ok ⟨2018, 2, 28⟩ ∧
    trade_date_from_h5 ("asdf".toList) =
      Except.error TradeDateFromFileErr.WrongFileExtension ∧
    trade_date_from_h5 ("asdf.txt".toList) =
      Except.error TradeDateFromFileErr.WrongFileExtension ∧
    (∀ p : List Char,
      trade_date_from_deep_pcap p = Except.error () ↔
        ((pathExtension p = some ("pcap".toList) ∨ pathExtension p = some ("gz".toList)) ∧
          ((pathFileStem p).getD []).length < 8)) ∧
    trade_date_from_deep_pcap ("20190703_IEXTP1_DEEP1.0.pcap".toList) =
      Except.ok (Except.ok ⟨2019, 7, 3⟩) := by
  refine ⟨?_, by decide, by decide, by decide, by decide, ?_, by decide⟩
  · intro p
    unfold trade_date_from_h5
    split
    · exact ⟨by simp, by simp⟩
    · next ext heq =>
        split
        · exact ⟨by simp, by simp⟩
        · split
          · next heq2 =>
              obtain ⟨stem, hstem⟩ := pathFileStem_of_ext heq
              rw [hstem] at heq2
              cases heq2
          · next stem heq2 => exact yyyymmdd_no_other_err stem
  · intro p
    unfold trade_date_from_deep_pcap
    split
    · next heq => simp [heq]
    · next ext heq =>
        split
        · next hw =>
            simp only [heq, Option.some.injEq]
            constructor
            · intro h
              cases h
            · rintro ⟨h | h, -⟩
              · exact absurd h hw.1
              · exact absurd h hw.2
        · next hw =>
            split
            · next heq2 =>
                obtain ⟨stem, hstem⟩ := pathFileStem_of_ext heq
                rw [hstem] at heq2
                cases heq2
            · next stem heq2 =>
                have hor : ext = "pcap".toList ∨ ext = "gz".toList := by
                  rcases Decidable.not_and_iff_or_not.mp hw with h | h
                  · exact Or.inl (Decidable.not_not.mp h)
                  · exact Or.inr (Decidable.not_not.mp h)
                split
                · next hlen =>
                    simp only [heq, heq2, Option.some.injEq, Option.getD_some, true_iff]
                    exact ⟨by rcases hor with h | h <;> [exact Or.inl h; exact Or.inr h], hlen⟩
                · next hlen =>
                    simp only [heq2, Option.getD_some, reduceCtorEq, false_iff, not_and,
                      not_lt]
                    intro hx
                    omega

theorem claim_C10_witness :
    trade_date_from_h5 ("x.h5".toList) ≠ Except.error TradeDateFromFileErr.NoStem ∧
    trade_date_from_deep_pcap ("ab.gz".toList) = Except.error () := by
  constructor
  · exact (claim_C10.1 ("x.h5".toList)).1
  · exact (claim_C10.2.2.2.2.2.1 ("ab.gz".toList)).mpr (by decide)
